import Mathlib

set_option allowUnsafeReducibility true
attribute [semireducible] Rat.add Rat.mul Rat.inv Rat.sub Rat.div Rat.ofScientific
set_option maxRecDepth 100000

/-!
Verification development for the Binance_Bot trading engine.

Python floats are modelled as rationals (`ℚ`), Python dicts as association
lists in insertion order, and wall-clock readings (`datetime.now(UTC)`) as
explicit rational-valued inputs.  Each definition is a direct translation of
the function of the same name in the source tree; deviations forced by the
embedding (e.g. comparing squared volatilities instead of square roots) are
noted in the doc comments.
-/

/-- `core/models.py`, `Position.__init__` fields: one open or closed trade.
Numeric fields are rationals; `entry_time` is the wall-clock reading taken at
construction.  The source additionally derives a default `position_id` string
from the symbol and the wall-clock timestamp (see `mkPosition`). -/
structure Position where
  symbol : String
  side : String
  entry_price : ℚ
  quantity : ℚ
  stop_loss : ℚ
  take_profit : ℚ
  confluence_score : ℤ
  position_id : String
  entry_time : ℚ
  exit_price : Option ℚ := none
  exit_time : Option ℚ := none
  profit_percent : Option ℚ := none
  profit_amount : Option ℚ := none
  exit_reason : Option String := none
  trailing_stop_active : Bool := false
  highest_price : Option ℚ := none
  lowest_price : Option ℚ := none
  partial_tp_hit : Bool := false
deriving Repr, DecidableEq

/-- `core/models.py`, `Position.__init__`: `now` is the wall-clock reading
(`datetime.now(UTC)`), used for `entry_time` and for the generated
`position_id` when the caller passes none. -/
def mkPosition (symbol side : String) (entry_price quantity stop_loss take_profit : ℚ)
    (confluence_score : ℤ) (position_id : Option String) (now : ℚ) : Position :=
  { symbol := symbol
    side := side
    entry_price := entry_price
    quantity := quantity
    stop_loss := stop_loss
    take_profit := take_profit
    confluence_score := confluence_score
    position_id := position_id.getD (symbol ++ "_" ++ toString now)
    entry_time := now
    trailing_stop_active := false
    highest_price := if side = "BUY" then some entry_price else none
    lowest_price := if side = "SELL" then some entry_price else none }

/-- `modules/trailing_stop.py`, `TrailingStopManager.__init__` (defaults 0.3 / 0.3). -/
structure TrailingStopManager where
  trail_percent : ℚ
  activation_profit : ℚ
deriving Repr, DecidableEq

/-- `modules/trailing_stop.py`, `TrailingStopManager.should_activate`. -/
def TrailingStopManager.should_activate (m : TrailingStopManager) (p : Position)
    (current_price : ℚ) : Bool :=
  if p.trailing_stop_active then true
  else
    let profit_pct :=
      if p.side = "BUY" then (current_price - p.entry_price) / p.entry_price * 100
      else (p.entry_price - current_price) / p.entry_price * 100
    decide (m.activation_profit ≤ profit_pct)

/-- `modules/trailing_stop.py`, `TrailingStopManager.update_trailing_stop`.
Sets the recorded peak whenever the price makes a new extreme, and moves the
stop only when the candidate stop is strictly better than the current one. -/
def TrailingStopManager.update_trailing_stop (m : TrailingStopManager) (p : Position)
    (current_price : ℚ) : Position × Bool :=
  if ¬ m.should_activate p current_price then (p, false)
  else if p.side = "BUY" then
    if p.highest_price.elim true (fun h => decide (h < current_price)) then
      if p.stop_loss < current_price * (1 - m.trail_percent / 100) then
        ({ p with highest_price := some current_price,
                  stop_loss := current_price * (1 - m.trail_percent / 100),
                  trailing_stop_active := true }, true)
      else ({ p with highest_price := some current_price }, false)
    else (p, false)
  else
    if p.lowest_price.elim true (fun l => decide (current_price < l)) then
      if current_price * (1 + m.trail_percent / 100) < p.stop_loss then
        ({ p with lowest_price := some current_price,
                  stop_loss := current_price * (1 + m.trail_percent / 100),
                  trailing_stop_active := true }, true)
      else ({ p with lowest_price := some current_price }, false)
    else (p, false)

/-- `core/models.py`, `Position.update_trailing_stop` (the unguarded variant;
its `trail_percent` parameter defaults to the same 0.3 as the manager).  In
the source, a position whose matching peak field is `None` would raise on the
comparison; `mkPosition` always sets the peak for the matching side, and the
`none` case is modelled as a no-op. -/
def Position.update_trailing_stop (p : Position) (current_price trail_percent : ℚ) :
    Position :=
  if p.side = "BUY" then
    p.highest_price.elim p (fun h =>
      if h < current_price then
        { p with highest_price := some current_price,
                 stop_loss := current_price * (1 - trail_percent / 100),
                 trailing_stop_active := true }
      else p)
  else
    p.lowest_price.elim p (fun l =>
      if current_price < l then
        { p with lowest_price := some current_price,
                 stop_loss := current_price * (1 + trail_percent / 100),
                 trailing_stop_active := true }
      else p)

/-- One price update applied through either of the two trailing-stop update
operations cited by the spec (the module's manager method, or the `Position`
method with the manager's trail distance). -/
inductive TrailOp where
  | mgrUpdate (price : ℚ)
  | posUpdate (price : ℚ)
deriving Repr, DecidableEq

/-- Apply a single trailing-stop update operation. -/
def trailStep (m : TrailingStopManager) (p : Position) : TrailOp → Position
  | .mgrUpdate price => (m.update_trailing_stop p price).1
  | .posUpdate price => p.update_trailing_stop price m.trail_percent

/-- Apply a sequence of trailing-stop update operations. -/
def applyTrailOps (m : TrailingStopManager) (p : Position) (ops : List TrailOp) : Position :=
  ops.foldl (trailStep m) p

/-- Invariant relating an active trailing stop to its recorded peak: the stop
never exceeds (for longs) / never undercuts (for shorts) the trailing distance
from the recorded extreme. -/
def trailInv (m : TrailingStopManager) (p : Position) : Prop :=
  p.trailing_stop_active = true →
    (p.side = "BUY" →
      ∃ h, p.highest_price = some h ∧ p.stop_loss ≤ h * (1 - m.trail_percent / 100)) ∧
    (p.side = "SELL" →
      ∃ l, p.lowest_price = some l ∧ l * (1 + m.trail_percent / 100) ≤ p.stop_loss)

/-- Case elimination for `TrailingStopManager.update_trailing_stop`: the result
is the unchanged position, a peak-and-stop update, or a peak-only update. -/
lemma TrailingStopManager.mgrUpdate_cases (m : TrailingStopManager) (p : Position)
    (price : ℚ) (C : Position → Prop)
    (hskip : C p)
    (hbuySet : p.side = "BUY" →
      p.highest_price.elim True (fun h => h < price) →
      p.stop_loss < price * (1 - m.trail_percent / 100) →
      C { p with highest_price := some price,
                 stop_loss := price * (1 - m.trail_percent / 100),
                 trailing_stop_active := true })
    (hbuyPeak : p.side = "BUY" →
      p.highest_price.elim True (fun h => h < price) →
      ¬ p.stop_loss < price * (1 - m.trail_percent / 100) →
      C { p with highest_price := some price })
    (hsellSet : p.side ≠ "BUY" →
      p.lowest_price.elim True (fun l => price < l) →
      price * (1 + m.trail_percent / 100) < p.stop_loss →
      C { p with lowest_price := some price,
                 stop_loss := price * (1 + m.trail_percent / 100),
                 trailing_stop_active := true })
    (hsellPeak : p.side ≠ "BUY" →
      p.lowest_price.elim True (fun l => price < l) →
      ¬ price * (1 + m.trail_percent / 100) < p.stop_loss →
      C { p with lowest_price := some price }) :
    C ((m.update_trailing_stop p price).1) := by
  unfold TrailingStopManager.update_trailing_stop
  by_cases hact : m.should_activate p price = true
  · rw [if_neg (by simpa using hact)]
    by_cases hbuy : p.side = "BUY"
    · rw [if_pos hbuy]
      by_cases hupd : (p.highest_price.elim true fun h => decide (h < price)) = true
      · have hupdP : p.highest_price.elim True (fun h => h < price) := by
          cases hp : p.highest_price with
          | none => trivial
          | some hh =>
            rw [hp] at hupd
            simp only [Option.elim] at hupd ⊢
            exact of_decide_eq_true hupd
        rw [if_pos hupd]
        by_cases hstop : p.stop_loss < price * (1 - m.trail_percent / 100)
        · rw [if_pos hstop]; exact hbuySet hbuy hupdP hstop
        · rw [if_neg hstop]; exact hbuyPeak hbuy hupdP hstop
      · rw [if_neg hupd]; exact hskip
    · rw [if_neg hbuy]
      by_cases hupd : (p.lowest_price.elim true fun l => decide (price < l)) = true
      · have hupdP : p.lowest_price.elim True (fun l => price < l) := by
          cases hp : p.lowest_price with
          | none => trivial
          | some ll =>
            rw [hp] at hupd
            simp only [Option.elim] at hupd ⊢
            exact of_decide_eq_true hupd
        rw [if_pos hupd]
        by_cases hstop : price * (1 + m.trail_percent / 100) < p.stop_loss
        · rw [if_pos hstop]; exact hsellSet hbuy hupdP hstop
        · rw [if_neg hstop]; exact hsellPeak hbuy hupdP hstop
      · rw [if_neg hupd]; exact hskip
  · rw [if_pos hact]; exact hskip

/-- Case elimination for `Position.update_trailing_stop`. -/
lemma Position.posUpdate_cases (p : Position) (price t : ℚ) (C : Position → Prop)
    (hskip : C p)
    (hbuySet : ∀ h, p.side = "BUY" → p.highest_price = some h → h < price →
      C { p with highest_price := some price,
                 stop_loss := price * (1 - t / 100), trailing_stop_active := true })
    (hsellSet : ∀ l, p.side ≠ "BUY" → p.lowest_price = some l → price < l →
      C { p with lowest_price := some price,
                 stop_loss := price * (1 + t / 100), trailing_stop_active := true }) :
    C (p.update_trailing_stop price t) := by
  unfold Position.update_trailing_stop
  by_cases hbuy : p.side = "BUY"
  · rw [if_pos hbuy]
    cases hp : p.highest_price with
    | none => exact hskip
    | some h =>
      simp only [Option.elim]
      by_cases hlt : h < price
      · rw [if_pos hlt]; exact hbuySet h hbuy hp hlt
      · rw [if_neg hlt]; exact hskip
  · rw [if_neg hbuy]
    cases hp : p.lowest_price with
    | none => exact hskip
    | some l =>
      simp only [Option.elim]
      by_cases hlt : price < l
      · rw [if_pos hlt]; exact hsellSet l hbuy hp hlt
      · rw [if_neg hlt]; exact hskip

lemma trailStep_side (m : TrailingStopManager) (p : Position) (op : TrailOp) :
    (trailStep m p op).side = p.side := by
  cases op with
  | mgrUpdate price =>
    exact m.mgrUpdate_cases p price (fun q => q.side = p.side)
      rfl (fun _ _ _ => rfl) (fun _ _ _ => rfl) (fun _ _ _ => rfl) (fun _ _ _ => rfl)
  | posUpdate price =>
    exact p.posUpdate_cases price m.trail_percent (fun q => q.side = p.side)
      rfl (fun _ _ _ _ => rfl) (fun _ _ _ _ => rfl)

lemma trailStep_active (m : TrailingStopManager) (p : Position) (op : TrailOp)
    (hA : p.trailing_stop_active = true) :
    (trailStep m p op).trailing_stop_active = true := by
  cases op with
  | mgrUpdate price =>
    exact m.mgrUpdate_cases p price (fun q => q.trailing_stop_active = true)
      hA (fun _ _ _ => rfl) (fun _ _ _ => hA) (fun _ _ _ => rfl) (fun _ _ _ => hA)
  | posUpdate price =>
    exact p.posUpdate_cases price m.trail_percent (fun q => q.trailing_stop_active = true)
      hA (fun _ _ _ _ => rfl) (fun _ _ _ _ => rfl)

lemma trailStep_inv (m : TrailingStopManager) (p : Position) (op : TrailOp)
    (h0 : 0 ≤ m.trail_percent) (h100 : m.trail_percent ≤ 100)
    (hI : trailInv m p) : trailInv m (trailStep m p op) := by
  have hfacB : (0:ℚ) ≤ 1 - m.trail_percent / 100 := by linarith
  have hfacS : (0:ℚ) < 1 + m.trail_percent / 100 := by linarith
  cases op with
  | mgrUpdate price =>
    refine m.mgrUpdate_cases p price (trailInv m) hI ?_ ?_ ?_ ?_
    · intro hbuy _ _ _
      exact ⟨fun _ => ⟨price, rfl, le_refl _⟩,
        fun hsell => absurd (hbuy.symm.trans hsell) (by decide)⟩
    · intro hbuy hupd _ hA
      obtain ⟨hh, hfind, hle⟩ := (hI hA).1 hbuy
      rw [hfind] at hupd
      simp only [Option.elim] at hupd
      exact ⟨fun _ => ⟨price, rfl,
          hle.trans (mul_le_mul_of_nonneg_right hupd.le hfacB)⟩,
        fun hsell => absurd (hbuy.symm.trans hsell) (by decide)⟩
    · intro hnb _ _ _
      exact ⟨fun hb => absurd hb hnb, fun _ => ⟨price, rfl, le_refl _⟩⟩
    · intro hnb hupd _ hA
      refine ⟨fun hb => absurd hb hnb, fun hsell => ?_⟩
      obtain ⟨ll, hfind, hle⟩ := (hI hA).2 hsell
      rw [hfind] at hupd
      simp only [Option.elim] at hupd
      exact ⟨price, rfl,
        ((mul_lt_mul_of_pos_right hupd hfacS).trans_le hle).le⟩
  | posUpdate price =>
    refine p.posUpdate_cases price m.trail_percent (trailInv m) hI ?_ ?_
    · intro h hbuy _ _ _
      exact ⟨fun _ => ⟨price, rfl, le_refl _⟩,
        fun hsell => absurd (hbuy.symm.trans hsell) (by decide)⟩
    · intro l hnb _ _ _
      exact ⟨fun hb => absurd hb hnb, fun _ => ⟨price, rfl, le_refl _⟩⟩

lemma trailStep_stop_mono (m : TrailingStopManager) (p : Position) (op : TrailOp)
    (h0 : 0 ≤ m.trail_percent) (h100 : m.trail_percent ≤ 100)
    (hI : trailInv m p) (hA : p.trailing_stop_active = true) :
    (p.side = "BUY" → p.stop_loss ≤ (trailStep m p op).stop_loss) ∧
    (p.side = "SELL" → (trailStep m p op).stop_loss ≤ p.stop_loss) := by
  have hfacB : (0:ℚ) ≤ 1 - m.trail_percent / 100 := by linarith
  have hfacS : (0:ℚ) < 1 + m.trail_percent / 100 := by linarith
  cases op with
  | mgrUpdate price =>
    refine m.mgrUpdate_cases p price
      (fun q => (p.side = "BUY" → p.stop_loss ≤ q.stop_loss) ∧
        (p.side = "SELL" → q.stop_loss ≤ p.stop_loss)) ?_ ?_ ?_ ?_ ?_
    · exact ⟨fun _ => le_refl _, fun _ => le_refl _⟩
    · intro hbuy _ hstop
      exact ⟨fun _ => hstop.le, fun hsell => absurd (hbuy.symm.trans hsell) (by decide)⟩
    · exact fun _ _ _ => ⟨fun _ => le_refl _, fun _ => le_refl _⟩
    · intro hnb _ hstop
      exact ⟨fun hb => absurd hb hnb, fun _ => hstop.le⟩
    · exact fun _ _ _ => ⟨fun _ => le_refl _, fun _ => le_refl _⟩
  | posUpdate price =>
    refine p.posUpdate_cases price m.trail_percent
      (fun q => (p.side = "BUY" → p.stop_loss ≤ q.stop_loss) ∧
        (p.side = "SELL" → q.stop_loss ≤ p.stop_loss)) ?_ ?_ ?_
    · exact ⟨fun _ => le_refl _, fun _ => le_refl _⟩
    · intro h hbuy hfind hlt
      refine ⟨fun _ => ?_, fun hsell => absurd (hbuy.symm.trans hsell) (by decide)⟩
      obtain ⟨hh, hfind2, hle⟩ := (hI hA).1 hbuy
      rw [hfind] at hfind2
      cases Option.some.inj hfind2
      exact hle.trans (mul_le_mul_of_nonneg_right hlt.le hfacB)
    · intro l hnb hfind hlt
      refine ⟨fun hb => absurd hb hnb, fun hsell => ?_⟩
      obtain ⟨ll, hfind2, hle⟩ := (hI hA).2 hsell
      rw [hfind] at hfind2
      cases Option.some.inj hfind2
      exact ((mul_lt_mul_of_pos_right hlt hfacS).trans_le hle).le

lemma applyTrailOps_side (m : TrailingStopManager) (p : Position) (ops : List TrailOp) :
    (applyTrailOps m p ops).side = p.side := by
  induction ops generalizing p with
  | nil => rfl
  | cons op rest ih =>
    simpa [applyTrailOps, trailStep_side] using
      (ih (trailStep m p op)).trans (trailStep_side m p op)

lemma applyTrailOps_active (m : TrailingStopManager) (p : Position) (ops : List TrailOp)
    (hA : p.trailing_stop_active = true) :
    (applyTrailOps m p ops).trailing_stop_active = true := by
  induction ops generalizing p with
  | nil => exact hA
  | cons op rest ih => exact ih (trailStep m p op) (trailStep_active m p op hA)

lemma applyTrailOps_inv (m : TrailingStopManager) (p : Position) (ops : List TrailOp)
    (h0 : 0 ≤ m.trail_percent) (h100 : m.trail_percent ≤ 100)
    (hI : trailInv m p) : trailInv m (applyTrailOps m p ops) := by
  induction ops generalizing p with
  | nil => exact hI
  | cons op rest ih => exact ih (trailStep m p op) (trailStep_inv m p op h0 h100 hI)

lemma applyTrailOps_stop_mono (m : TrailingStopManager) (p : Position) (ops : List TrailOp)
    (h0 : 0 ≤ m.trail_percent) (h100 : m.trail_percent ≤ 100)
    (hI : trailInv m p) (hA : p.trailing_stop_active = true) :
    (p.side = "BUY" → p.stop_loss ≤ (applyTrailOps m p ops).stop_loss) ∧
    (p.side = "SELL" → (applyTrailOps m p ops).stop_loss ≤ p.stop_loss) := by
  induction ops generalizing p with
  | nil => exact ⟨fun _ => le_refl _, fun _ => le_refl _⟩
  | cons op rest ih =>
    have hstep := trailStep_stop_mono m p op h0 h100 hI hA
    have hrest := ih (trailStep m p op) (trailStep_inv m p op h0 h100 hI)
      (trailStep_active m p op hA)
    constructor
    · intro hb
      exact (hstep.1 hb).trans (hrest.1 ((trailStep_side m p op).trans hb))
    · intro hs
      exact (hrest.2 ((trailStep_side m p op).trans hs)).trans (hstep.2 hs)

/-- C1: for every position and every sequence of successive price updates
applied through the trailing-stop update operations (with the trail distance a
fixed percentage in `[0, 100]`), once the position's trailing stop is active
the stored stop-loss never decreases for a long (side BUY) position and never
increases for a short (side SELL) position. -/
theorem c1_trailing_stop_monotone_once_active
    (m : TrailingStopManager) (h0 : 0 ≤ m.trail_percent) (h100 : m.trail_percent ≤ 100)
    (symbol side : String) (entry_price quantity stop_loss take_profit : ℚ)
    (cs : ℤ) (pid : Option String) (now : ℚ) (ops1 ops2 : List TrailOp)
    (hactive : (applyTrailOps m
      (mkPosition symbol side entry_price quantity stop_loss take_profit cs pid now)
      ops1).trailing_stop_active = true) :
    (side = "BUY" →
      (applyTrailOps m
        (mkPosition symbol side entry_price quantity stop_loss take_profit cs pid now)
        ops1).stop_loss ≤
      (applyTrailOps m
        (mkPosition symbol side entry_price quantity stop_loss take_profit cs pid now)
        (ops1 ++ ops2)).stop_loss) ∧
    (side = "SELL" →
      (applyTrailOps m
        (mkPosition symbol side entry_price quantity stop_loss take_profit cs pid now)
        (ops1 ++ ops2)).stop_loss ≤
      (applyTrailOps m
        (mkPosition symbol side entry_price quantity stop_loss take_profit cs pid now)
        ops1).stop_loss) := by
  have hInv0 : trailInv m
      (mkPosition symbol side entry_price quantity stop_loss take_profit cs pid now) := by
    intro hA
    rw [show (mkPosition symbol side entry_price quantity stop_loss take_profit cs
      pid now).trailing_stop_active = false from rfl] at hA
    exact absurd hA (by decide)
  have happ : applyTrailOps m
      (mkPosition symbol side entry_price quantity stop_loss take_profit cs pid now)
      (ops1 ++ ops2) =
      applyTrailOps m (applyTrailOps m
        (mkPosition symbol side entry_price quantity stop_loss take_profit cs pid now)
        ops1) ops2 :=
    List.foldl_append _ _ _ _
  have hside : (applyTrailOps m
      (mkPosition symbol side entry_price quantity stop_loss take_profit cs pid now)
      ops1).side = side :=
    applyTrailOps_side m _ ops1
  have hmono := applyTrailOps_stop_mono m _ ops2 h0 h100
    (applyTrailOps_inv m _ ops1 h0 h100 hInv0) hactive
  constructor
  · intro hb
    rw [happ]
    exact hmono.1 (hside.trans hb)
  · intro hs
    rw [happ]
    exact hmono.2 (hside.trans hs)

/-- Witness for C1: a long position activated by a first price update keeps at
least its activated stop across a subsequent lower price update. -/
theorem c1_witness :
    (applyTrailOps ⟨3/10, 3/10⟩
      (mkPosition "BTCUSDT" "BUY" 100 1 99 102 3 none 0)
      [TrailOp.mgrUpdate 101]).stop_loss ≤
    (applyTrailOps ⟨3/10, 3/10⟩
      (mkPosition "BTCUSDT" "BUY" 100 1 99 102 3 none 0)
      ([TrailOp.mgrUpdate 101] ++ [TrailOp.mgrUpdate (201/2)])).stop_loss :=
  (c1_trailing_stop_monotone_once_active ⟨3/10, 3/10⟩ (by norm_num) (by norm_num)
    "BTCUSDT" "BUY" 100 1 99 102 3 none 0
    [TrailOp.mgrUpdate 101] [TrailOp.mgrUpdate (201/2)] (by decide)).1 rfl

/-- `managers/symbol_manager.py`, `SymbolManager`: instrument pool, active cap
and momentum scores (a Python dict, modelled as an association list in
insertion order).  The wall-clock fields (`last_rotation_time`,
`rotation_interval`, `symbol_performance` timestamps) play no part in
`rotate_symbols` itself and are omitted. -/
structure SymbolManager where
  symbol_pool : List String
  max_active : ℕ
  momentum_scores : List (String × ℚ)
  active_symbols : List String
deriving Repr, DecidableEq

/-- Stable insertion for a descending sort by score: the new item goes before
the first strictly smaller score, matching Python's stable
`sorted(key, reverse=True)`. -/
def insertScoreDesc (x : String × ℚ) : List (String × ℚ) → List (String × ℚ)
  | [] => [x]
  | y :: ys => if y.2 < x.2 then x :: y :: ys else y :: insertScoreDesc x ys

/-- `sorted(self.momentum_scores.items(), key=lambda x: x[1], reverse=True)`. -/
def sortByScoreDesc (l : List (String × ℚ)) : List (String × ℚ) :=
  l.foldl (fun acc x => insertScoreDesc x acc) []

/-- Python `list(set(xs))` for a list of strings.  CPython set iteration order
is unspecified (hash-randomised); the embedding fixes first-occurrence order.
The C2 counterexample is independent of this ordering choice: it truncates a
two-element set to one slot, so some protected symbol is dropped whatever
order the set iterates in. -/
def pyListSet (l : List String) : List String :=
  l.foldl (fun acc s => if s ∈ acc then acc else acc ++ [s]) []

/-- The `if len(new_active) < self.max_active` fill loop at the end of
`rotate_symbols`: walk the score-sorted list, appending unseen symbols until
the cap is reached. -/
def fillFromSorted (acc : List String) (sorted : List (String × ℚ)) (k : ℕ) : List String :=
  match sorted with
  | [] => acc
  | (s, _) :: rest =>
    if s ∉ acc then
      if k ≤ (acc ++ [s]).length then acc ++ [s] else fillFromSorted (acc ++ [s]) rest k
    else fillFromSorted acc rest k

/-- `managers/symbol_manager.py`, `SymbolManager.rotate_symbols`.  Returns the
updated manager and the new active list (the source stores it on `self` and
returns it). -/
def SymbolManager.rotate_symbols (sm : SymbolManager)
    (current_positions : List (String × ℕ)) : SymbolManager × List String :=
  let sorted_symbols := sortByScoreDesc sm.momentum_scores
  let top_symbols := (sorted_symbols.take sm.max_active).map Prod.fst
  let protected_symbols := (current_positions.filter (fun sc => 0 < sc.2)).map Prod.fst
  let new_active := (pyListSet (protected_symbols ++ top_symbols)).take sm.max_active
  let filled :=
    if new_active.length < sm.max_active then fillFromSorted new_active sorted_symbols sm.max_active
    else new_active
  ({ sm with active_symbols := filled }, filled)

lemma mem_pyListSet_core (l : List String) (acc : List String) (a : String)
    (h : a ∈ acc ∨ a ∈ l) :
    a ∈ l.foldl (fun acc s => if s ∈ acc then acc else acc ++ [s]) acc := by
  induction l generalizing acc with
  | nil => simpa using h.resolve_right (by simp)
  | cons s rest ih =>
    simp only [List.foldl_cons]
    apply ih
    rcases h with hacc | hmem
    · left
      by_cases hs : s ∈ acc <;> simp [hs, hacc]
    · rcases List.mem_cons.1 hmem with rfl | hrest
      · left
        by_cases hs : a ∈ acc <;> simp [hs]
      · right; exact hrest

lemma mem_pyListSet_of_mem (l : List String) (a : String) (h : a ∈ l) :
    a ∈ pyListSet l :=
  mem_pyListSet_core l [] a (Or.inr h)

lemma mem_fillFromSorted_of_mem (acc : List String) (sorted : List (String × ℚ))
    (k : ℕ) (a : String) (h : a ∈ acc) : a ∈ fillFromSorted acc sorted k := by
  induction sorted generalizing acc with
  | nil => simpa [fillFromSorted] using h
  | cons x rest ih =>
    obtain ⟨s, score⟩ := x
    simp only [fillFromSorted]
    split_ifs with hmem hlen
    · exact ih acc h
    · simp [h]
    · exact ih (acc ++ [s]) (by simp [h])

/-- C2 (counterexample): with a one-slot active set and two instruments both
holding an open position, rotation evicts one of them — here instrument "B",
which has one open position, is absent from the returned active set. -/
theorem c2_counterexample :
    ("B", 1) ∈ [("A", 1), ("B", (1 : ℕ))] ∧ (0 : ℕ) < 1 ∧
    "B" ∉ (SymbolManager.rotate_symbols
      ⟨["A", "B"], 1, [("A", 2), ("B", 1)], ["A"]⟩ [("A", 1), ("B", 1)]).2 := by
  decide

/-- C2 (amended): rotation never evicts an instrument with at least one open
position, provided the deduplicated union of protected instruments and the
top-scored instruments fits within `max_active`; when it overflows, the
truncation of `list(set(protected + top))[:max_active]` can evict instruments
with open positions. -/
theorem c2_rotation_keeps_open_positions (sm : SymbolManager)
    (current_positions : List (String × ℕ))
    (hfit : (pyListSet
      (((current_positions.filter (fun sc => 0 < sc.2)).map Prod.fst) ++
        ((sortByScoreDesc sm.momentum_scores).take sm.max_active).map Prod.fst)).length ≤
      sm.max_active)
    (s : String) (k : ℕ) (hmem : (s, k) ∈ current_positions) (hk : 0 < k) :
    s ∈ (sm.rotate_symbols current_positions).2 := by
  have hs : s ∈ (current_positions.filter (fun sc => 0 < sc.2)).map Prod.fst := by
    refine List.mem_map.2 ⟨(s, k), ?_, rfl⟩
    refine List.mem_filter.2 ⟨hmem, by simpa using hk⟩
  have hs2 : s ∈ pyListSet
      (((current_positions.filter (fun sc => 0 < sc.2)).map Prod.fst) ++
        ((sortByScoreDesc sm.momentum_scores).take sm.max_active).map Prod.fst) :=
    mem_pyListSet_of_mem _ s (List.mem_append_left _ hs)
  simp only [SymbolManager.rotate_symbols]
  rw [List.take_of_length_le hfit]
  split_ifs with hlen
  · exact mem_fillFromSorted_of_mem _ _ _ s hs2
  · exact hs2

/-- Witness for C2 (amended): a protected instrument that fits within the cap
stays in the active set. -/
theorem c2_witness :
    "B" ∈ (SymbolManager.rotate_symbols
      ⟨["A", "B"], 2, [("A", 2), ("B", 1)], ["A", "B"]⟩ [("B", 1)]).2 :=
  c2_rotation_keeps_open_positions
    ⟨["A", "B"], 2, [("A", 2), ("B", 1)], ["A", "B"]⟩ [("B", 1)]
    (by decide) "B" 1 (by decide) (by decide)

/-- Lookup in a Python dict modelled as an association list. -/
def dictGet {α : Type} (d : List (String × α)) (k : String) : Option α :=
  (d.find? (fun e => e.1 == k)).map Prod.snd

/-- `d[k] = v` on a Python dict: update in place if the key exists, else
append (insertion order preserved). -/
def dictSet {α : Type} (d : List (String × α)) (k : String) (v : α) :
    List (String × α) :=
  if (d.find? (fun e => e.1 == k)).isSome then
    d.map (fun e => if e.1 == k then (k, v) else e)
  else d ++ [(k, v)]

/-- `del d[k]` / `d.pop(k)` on a Python dict (keys are unique, so removing the
first match removes the key). -/
def dictPop {α : Type} (d : List (String × α)) (k : String) : List (String × α) :=
  d.eraseP (fun e => e.1 == k)

/-- `managers/position_manager.py`, `PositionManager`: caps, the position
table keyed by caller-generated id, and the symbol-to-ids index. -/
structure PositionManager where
  max_total_positions : ℕ
  max_per_symbol : ℕ
  positions : List (String × Position)
  symbol_positions : List (String × List String)
deriving Repr, DecidableEq

/-- `len(self.symbol_positions.get(symbol, []))`. -/
def PositionManager.symbolCount (pm : PositionManager) (symbol : String) : ℕ :=
  ((dictGet pm.symbol_positions symbol).getD []).length

/-- `managers/position_manager.py`, `PositionManager.add_position`. -/
def PositionManager.add_position (pm : PositionManager) (position : Position) :
    PositionManager × Bool :=
  if pm.max_total_positions ≤ pm.positions.length then (pm, false)
  else if pm.max_per_symbol ≤ pm.symbolCount position.symbol then (pm, false)
  else
    let ids := (dictGet pm.symbol_positions position.symbol).getD []
    ({ pm with
        positions := dictSet pm.positions position.position_id position,
        symbol_positions :=
          dictSet pm.symbol_positions position.symbol (ids ++ [position.position_id]) },
      true)

/-- `managers/position_manager.py`, `PositionManager.remove_position`.  The
source's `list.remove` drops the first matching id (`List.erase`). -/
def PositionManager.remove_position (pm : PositionManager) (position_id : String) :
    PositionManager × Option Position :=
  match dictGet pm.positions position_id with
  | none => (pm, none)
  | some position =>
    let positions2 := dictPop pm.positions position_id
    let symbol_positions2 :=
      match dictGet pm.symbol_positions position.symbol with
      | none => pm.symbol_positions
      | some ids =>
        if ids.erase position_id = [] then dictPop pm.symbol_positions position.symbol
        else dictSet pm.symbol_positions position.symbol (ids.erase position_id)
    ({ pm with positions := positions2, symbol_positions := symbol_positions2 },
      some position)

/-- C5: `add_position` returns false and leaves the position table and the
symbol index completely unchanged whenever the global or per-symbol cap is
reached; and after a `remove_position` brings both counts back below their
caps, an `add_position` for that symbol succeeds again. -/
theorem c5_add_capped_noop_and_remove_reenables (pm : PositionManager)
    (position : Position) :
    ((pm.max_total_positions ≤ pm.positions.length ∨
        pm.max_per_symbol ≤ pm.symbolCount position.symbol) →
      pm.add_position position = (pm, false)) ∧
    (∀ position_id : String,
      ((pm.remove_position position_id).1.positions.length < pm.max_total_positions →
        (pm.remove_position position_id).1.symbolCount position.symbol < pm.max_per_symbol →
        ((pm.remove_position position_id).1.add_position position).2 = true)) := by
  constructor
  · intro hcap
    unfold PositionManager.add_position
    rcases hcap with htot | hsym
    · rw [if_pos htot]
    · by_cases htot : pm.max_total_positions ≤ pm.positions.length
      · rw [if_pos htot]
      · rw [if_neg htot, if_pos hsym]
  · intro position_id h1 h2
    unfold PositionManager.add_position
    have hmaxT : (pm.remove_position position_id).1.max_total_positions =
        pm.max_total_positions := by
      unfold PositionManager.remove_position
      cases dictGet pm.positions position_id <;> rfl
    have hmaxS : (pm.remove_position position_id).1.max_per_symbol =
        pm.max_per_symbol := by
      unfold PositionManager.remove_position
      cases dictGet pm.positions position_id <;> rfl
    rw [hmaxT, if_neg (not_le.2 h1), hmaxS, if_neg (not_le.2 h2)]

/-- Witness for C5: with both caps at one and one tracked position, an add is
rejected without mutation, and after removing the tracked position the same
add succeeds. -/
theorem c5_witness :
    ((PositionManager.add_position
        ⟨1, 1, [("id1", mkPosition "BTCUSDT" "BUY" 100 1 99 102 3 (some "id1") 0)],
          [("BTCUSDT", ["id1"])]⟩
        (mkPosition "BTCUSDT" "BUY" 100 1 99 102 3 (some "id2") 0)) =
      (⟨1, 1, [("id1", mkPosition "BTCUSDT" "BUY" 100 1 99 102 3 (some "id1") 0)],
          [("BTCUSDT", ["id1"])]⟩, false)) ∧
    ((PositionManager.add_position
        (PositionManager.remove_position
          ⟨1, 1, [("id1", mkPosition "BTCUSDT" "BUY" 100 1 99 102 3 (some "id1") 0)],
            [("BTCUSDT", ["id1"])]⟩ "id1").1
        (mkPosition "BTCUSDT" "BUY" 100 1 99 102 3 (some "id2") 0)).2 = true) :=
  ⟨(c5_add_capped_noop_and_remove_reenables _ _).1 (Or.inl (by decide)),
    (c5_add_capped_noop_and_remove_reenables _ _).2 "id1" (by decide) (by decide)⟩

/-- `core/risk_manager.py`, the `RiskManager` state read by
`calculate_position_size`.  `position_values` are the `pos["value"]` entries
of the open-position dict (in insertion order); `corr_score` stands for the
numpy Pearson aggregate inside `get_portfolio_correlation_score` (the claims
treat the correlation score itself as the varied factor);
`current_atr`/`atr_history` are that symbol's entries of the ATR-tracking
dicts (`none` models `symbol not in self.current_atr`). -/
structure RiskState where
  max_risk_per_trade : ℚ
  current_capital : ℚ
  peak_capital : ℚ
  position_values : List ℚ
  corr_score : ℚ
  current_atr : Option ℚ
  atr_history : List ℚ
  consecutive_losses : ℕ
deriving Repr, DecidableEq

/-- `np.mean` over a rational list. -/
def listMean (l : List ℚ) : ℚ := l.sum / l.length

/-- `get_portfolio_correlation_score`: returns 0 with fewer than two open
positions; the Pearson aggregate over the price-history deques is the
abstracted `corr_score` field. -/
def RiskState.portfolio_correlation_score (s : RiskState) : ℚ :=
  if s.position_values.length < 2 then 0 else s.corr_score

/-- `get_portfolio_metrics().total_exposure`: 0 with no open positions, else
the summed position values over current capital. -/
def RiskState.total_exposure (s : RiskState) : ℚ :=
  if s.position_values = [] then 0 else s.position_values.sum / s.current_capital

/-- `core/risk_manager.py`, `RiskManager._get_volatility_multiplier`. -/
def RiskState.volatility_multiplier (s : RiskState) : ℚ :=
  match s.current_atr with
  | none => 1
  | some current_atr =>
    if s.atr_history.length < 20 then 1
    else
      let avg_atr := listMean s.atr_history
      let vol_ratio := if 0 < avg_atr then current_atr / avg_atr else 1
      if vol_ratio < 0.7 then 1.3
      else if vol_ratio < 1.3 then 1
      else if vol_ratio < 2 then 0.7
      else 0.4

/-- Bucket table of `RiskManager._get_drawdown_multiplier`. -/
def ddMultOf (drawdown : ℚ) : ℚ :=
  if drawdown < 0.05 then 1
  else if drawdown < 0.10 then 0.9
  else if drawdown < 0.15 then 0.7
  else if drawdown < 0.20 then 0.5
  else 0.3

/-- `core/risk_manager.py`, `RiskManager._get_drawdown_multiplier`. -/
def RiskState.drawdown_multiplier (s : RiskState) : ℚ :=
  ddMultOf ((s.peak_capital - s.current_capital) / s.peak_capital)

/-- Bucket table of `RiskManager._get_consecutive_loss_multiplier`. -/
def lossMultOf (n : ℕ) : ℚ :=
  if n = 0 then 1
  else if n = 1 then 1
  else if n = 2 then 0.9
  else if n = 3 then 0.8
  else if n = 4 then 0.6
  else 0.4

/-- `core/risk_manager.py`, `RiskManager._get_consecutive_loss_multiplier`. -/
def RiskState.consecutive_loss_multiplier (s : RiskState) : ℚ :=
  lossMultOf s.consecutive_losses

/-- The `details` dict returned by `calculate_position_size`. -/
structure SizeBreakdown where
  base_risk : ℚ
  kelly_fraction : ℚ
  kelly_size : ℚ
  confidence_adj : ℚ
  vol_multiplier : ℚ
  drawdown_multiplier : ℚ
  loss_multiplier : ℚ
  final_value : ℚ
  position_size : ℚ
  risk_pct : ℚ
deriving Repr, DecidableEq

/-- `core/risk_manager.py`, `RiskManager.calculate_position_size` (defaults
`win_rate = 0.55`, `confidence = 1.0` are supplied by callers). -/
def RiskState.calculate_position_size (s : RiskState)
    (entry_price stop_loss_pct win_rate confidence : ℚ) : ℚ × SizeBreakdown :=
  let base_risk := s.current_capital * s.max_risk_per_trade
  let avg_win : ℚ := 0.006
  let win_loss_ratio := if 0 < stop_loss_pct then avg_win / stop_loss_pct else 1.7
  let kelly_fraction := (win_rate * win_loss_ratio - (1 - win_rate)) / win_loss_ratio
  let kelly_fraction := max 0 (min kelly_fraction 0.25)
  let kelly_size := s.current_capital * kelly_fraction * 0.25
  let position_value :=
    if base_risk < kelly_size then base_risk * (1 + min kelly_fraction 0.5) else base_risk
  let position_value := position_value * confidence
  let exposure := s.total_exposure
  let position_value :=
    if 0.12 < exposure then position_value * 0.6
    else if 0.08 < exposure then position_value * 0.8
    else position_value
  let corr := s.portfolio_correlation_score
  let position_value :=
    if 0.6 < corr then position_value * 0.4
    else if 0.5 < corr then position_value * 0.7
    else position_value
  let vol_multiplier := s.volatility_multiplier
  let position_value := position_value * vol_multiplier
  let drawdown_multiplier := s.drawdown_multiplier
  let position_value := position_value * drawdown_multiplier
  let loss_multiplier := s.consecutive_loss_multiplier
  let position_value := position_value * loss_multiplier
  let position_size := position_value / entry_price
  (position_size,
    { base_risk := base_risk
      kelly_fraction := kelly_fraction
      kelly_size := kelly_size
      confidence_adj := confidence
      vol_multiplier := vol_multiplier
      drawdown_multiplier := drawdown_multiplier
      loss_multiplier := loss_multiplier
      final_value := position_value
      position_size := position_size
      risk_pct := position_value * stop_loss_pct / s.current_capital * 100 })

/-- The damped-Kelly fraction computed inside `calculate_position_size`. -/
def kellyFractionOf (stop_loss_pct win_rate : ℚ) : ℚ :=
  let win_loss_ratio := if 0 < stop_loss_pct then (0.006 : ℚ) / stop_loss_pct else 1.7
  max 0 (min ((win_rate * win_loss_ratio - (1 - win_rate)) / win_loss_ratio) 0.25)

/-- The position value before the derating chain: base risk, Kelly-blended,
scaled by confidence. -/
def preValue (cap mrpt stop_loss_pct win_rate confidence : ℚ) : ℚ :=
  let kf := kellyFractionOf stop_loss_pct win_rate
  (if cap * mrpt < cap * kf * 0.25 then cap * mrpt * (1 + min kf 0.5) else cap * mrpt) *
    confidence

/-- The portfolio-exposure derating factor applied by the sizing chain. -/
def exposureMultiplier (exposure : ℚ) : ℚ :=
  if 0.12 < exposure then 0.6 else if 0.08 < exposure then 0.8 else 1

/-- The correlation derating factor applied by the sizing chain. -/
def correlationMultiplier (corr : ℚ) : ℚ :=
  if 0.6 < corr then 0.4 else if 0.5 < corr then 0.7 else 1

/-- The computed size is the pre-derating value times the five derating
factors, divided by the entry price. -/
lemma calc_size_product (s : RiskState)
    (entry_price stop_loss_pct win_rate confidence : ℚ) :
    (s.calculate_position_size entry_price stop_loss_pct win_rate confidence).1 =
      preValue s.current_capital s.max_risk_per_trade stop_loss_pct win_rate confidence *
        exposureMultiplier s.total_exposure *
        correlationMultiplier s.portfolio_correlation_score *
        s.volatility_multiplier * s.drawdown_multiplier *
        s.consecutive_loss_multiplier / entry_price := by
  simp only [RiskState.calculate_position_size, preValue, kellyFractionOf,
    exposureMultiplier, correlationMultiplier]
  split_ifs <;> ring

lemma kellyFractionOf_nonneg (stop_loss_pct win_rate : ℚ) :
    0 ≤ kellyFractionOf stop_loss_pct win_rate := by
  simp only [kellyFractionOf]
  exact le_max_left _ _

lemma exposureMultiplier_pos (x : ℚ) : 0 < exposureMultiplier x := by
  unfold exposureMultiplier; split_ifs <;> norm_num

lemma exposureMultiplier_antitone {x y : ℚ} (h : x ≤ y) :
    exposureMultiplier y ≤ exposureMultiplier x := by
  unfold exposureMultiplier; split_ifs <;> linarith

lemma correlationMultiplier_pos (x : ℚ) : 0 < correlationMultiplier x := by
  unfold correlationMultiplier; split_ifs <;> norm_num

lemma correlationMultiplier_antitone {x y : ℚ} (h : x ≤ y) :
    correlationMultiplier y ≤ correlationMultiplier x := by
  unfold correlationMultiplier; split_ifs <;> linarith

lemma ddMultOf_pos (x : ℚ) : 0 < ddMultOf x := by
  unfold ddMultOf; split_ifs <;> norm_num

lemma ddMultOf_antitone {x y : ℚ} (h : x ≤ y) : ddMultOf y ≤ ddMultOf x := by
  unfold ddMultOf; split_ifs <;> linarith

lemma lossMultOf_pos (n : ℕ) : 0 < lossMultOf n := by
  unfold lossMultOf; split_ifs <;> norm_num

lemma lossMultOf_antitone {n m : ℕ} (h : n ≤ m) : lossMultOf m ≤ lossMultOf n := by
  unfold lossMultOf
  split_ifs <;> first | (exfalso; omega) | norm_num

lemma volatility_multiplier_pos (s : RiskState) : 0 < s.volatility_multiplier := by
  unfold RiskState.volatility_multiplier
  cases s.current_atr with
  | none => norm_num
  | some a => simp only; split_ifs <;> norm_num

lemma preValue_nonneg (cap mrpt slp wr conf : ℚ)
    (hcap : 0 ≤ cap) (hm : 0 ≤ mrpt) (hconf : 0 ≤ conf) :
    0 ≤ preValue cap mrpt slp wr conf := by
  have hkf : 0 ≤ kellyFractionOf slp wr := kellyFractionOf_nonneg slp wr
  have hmin : 0 ≤ min (kellyFractionOf slp wr) 0.5 := le_min hkf (by norm_num)
  simp only [preValue]
  split_ifs with h
  · exact mul_nonneg (mul_nonneg (mul_nonneg hcap hm) (by linarith)) hconf
  · exact mul_nonneg (mul_nonneg hcap hm) hconf

lemma preValue_mono_cap (cap1 cap2 mrpt slp wr conf : ℚ)
    (hcap2 : 0 < cap2) (hle : cap2 ≤ cap1) (hm : 0 ≤ mrpt) (hconf : 0 ≤ conf) :
    preValue cap2 mrpt slp wr conf ≤ preValue cap1 mrpt slp wr conf := by
  have hcap1 : 0 < cap1 := hcap2.trans_le hle
  have hkf : 0 ≤ kellyFractionOf slp wr := kellyFractionOf_nonneg slp wr
  have hmin : 0 ≤ min (kellyFractionOf slp wr) 0.5 := le_min hkf (by norm_num)
  simp only [preValue]
  by_cases hcond : mrpt < kellyFractionOf slp wr * 0.25
  · rw [if_pos (by rw [mul_assoc]; exact (mul_lt_mul_left hcap2).2 hcond),
      if_pos (by rw [mul_assoc]; exact (mul_lt_mul_left hcap1).2 hcond)]
    exact mul_le_mul_of_nonneg_right
      (mul_le_mul_of_nonneg_right (mul_le_mul_of_nonneg_right hle hm) (by linarith)) hconf
  · rw [if_neg (fun h => hcond (by rw [mul_assoc] at h; exact (mul_lt_mul_left hcap2).1 h)),
      if_neg (fun h => hcond (by rw [mul_assoc] at h; exact (mul_lt_mul_left hcap1).1 h))]
    exact mul_le_mul_of_nonneg_right (mul_le_mul_of_nonneg_right hle hm) hconf

lemma sizeFactors_le (a1 b1 c1 d1 e1 f1 a2 b2 c2 d2 e2 f2 g : ℚ)
    (ha : a2 ≤ a1) (hb : b2 ≤ b1) (hc : c2 ≤ c1) (hd : d2 ≤ d1) (he : e2 ≤ e1)
    (hf : f2 ≤ f1)
    (hb2 : 0 ≤ b2) (hc2 : 0 ≤ c2) (hd2 : 0 ≤ d2) (he2 : 0 ≤ e2) (hf2 : 0 ≤ f2)
    (ha1 : 0 ≤ a1) (hb1 : 0 ≤ b1) (hc1 : 0 ≤ c1) (hd1 : 0 ≤ d1) (he1 : 0 ≤ e1)
    (hg : 0 < g) :
    a2 * b2 * c2 * d2 * e2 * f2 / g ≤ a1 * b1 * c1 * d1 * e1 * f1 / g := by
  refine (div_le_div_right hg).2 ?_
  refine mul_le_mul ?_ hf hf2
    (mul_nonneg (mul_nonneg (mul_nonneg (mul_nonneg ha1 hb1) hc1) hd1) he1)
  refine mul_le_mul ?_ he he2
    (mul_nonneg (mul_nonneg (mul_nonneg ha1 hb1) hc1) hd1)
  refine mul_le_mul ?_ hd hd2 (mul_nonneg (mul_nonneg ha1 hb1) hc1)
  refine mul_le_mul ?_ hc hc2 (mul_nonneg ha1 hb1)
  exact mul_le_mul ha hb hb2 ha1

/-- C4: the derating chain of `calculate_position_size` is monotone.  With all
other inputs and manager state held equal: a larger current drawdown (a lower
current capital and/or a higher capital peak), a larger portfolio correlation
score, or a larger consecutive-loss count never yields a larger computed
size. -/
theorem c4_derating_monotone :
    (∀ (s : RiskState) (entry_price stop_loss_pct win_rate confidence cap2 peak2 : ℚ),
      0 < entry_price → 0 ≤ s.max_risk_per_trade → 0 ≤ confidence →
      0 ≤ s.position_values.sum →
      0 < cap2 → cap2 ≤ s.current_capital →
      0 < s.peak_capital → s.peak_capital ≤ peak2 →
      (({ s with current_capital := cap2, peak_capital := peak2 }
          : RiskState).calculate_position_size
          entry_price stop_loss_pct win_rate confidence).1 ≤
        (s.calculate_position_size entry_price stop_loss_pct win_rate confidence).1) ∧
    (∀ (s : RiskState) (entry_price stop_loss_pct win_rate confidence corr2 : ℚ),
      0 < entry_price → 0 ≤ s.max_risk_per_trade → 0 ≤ s.current_capital →
      0 ≤ confidence → s.corr_score ≤ corr2 →
      (({ s with corr_score := corr2 } : RiskState).calculate_position_size
          entry_price stop_loss_pct win_rate confidence).1 ≤
        (s.calculate_position_size entry_price stop_loss_pct win_rate confidence).1) ∧
    (∀ (s : RiskState) (entry_price stop_loss_pct win_rate confidence : ℚ) (losses2 : ℕ),
      0 < entry_price → 0 ≤ s.max_risk_per_trade → 0 ≤ s.current_capital →
      0 ≤ confidence → s.consecutive_losses ≤ losses2 →
      (({ s with consecutive_losses := losses2 } : RiskState).calculate_position_size
          entry_price stop_loss_pct win_rate confidence).1 ≤
        (s.calculate_position_size entry_price stop_loss_pct win_rate confidence).1) := by
  refine ⟨?_, ?_, ?_⟩
  · intro s e slp wr conf cap2 peak2 he hm hconf hV hcap2 hcaple hpeak1 hpeakle
    have hcap1 : 0 < s.current_capital := hcap2.trans_le hcaple
    have hpeak2 : 0 < peak2 := hpeak1.trans_le hpeakle
    rw [calc_size_product, calc_size_product]
    refine sizeFactors_le _ _ _ _ _ _ _ _ _ _ _ _ _
      ?_ ?_ ?_ ?_ ?_ ?_ ?_ ?_ ?_ ?_ ?_ ?_ ?_ ?_ ?_ ?_ ?_
    · exact preValue_mono_cap _ _ _ _ _ _ hcap2 hcaple hm hconf
    · apply exposureMultiplier_antitone
      simp only [RiskState.total_exposure]
      split_ifs with hE
      · exact le_refl 0
      · rw [div_le_div_iff hcap1 hcap2]
        exact mul_le_mul_of_nonneg_left hcaple hV
    · exact le_refl _
    · exact le_refl _
    · simp only [RiskState.drawdown_multiplier]
      apply ddMultOf_antitone
      rw [div_le_div_iff hpeak1 hpeak2]
      have h1 : cap2 * s.peak_capital ≤ s.current_capital * s.peak_capital :=
        mul_le_mul_of_nonneg_right hcaple hpeak1.le
      have h2 : s.current_capital * s.peak_capital ≤ s.current_capital * peak2 :=
        mul_le_mul_of_nonneg_left hpeakle hcap1.le
      nlinarith [h1, h2]
    · exact le_refl _
    · exact (exposureMultiplier_pos _).le
    · exact (correlationMultiplier_pos _).le
    · exact (volatility_multiplier_pos _).le
    · exact (ddMultOf_pos _).le
    · exact (lossMultOf_pos _).le
    · exact preValue_nonneg _ _ _ _ _ hcap1.le hm hconf
    · exact (exposureMultiplier_pos _).le
    · exact (correlationMultiplier_pos _).le
    · exact (volatility_multiplier_pos _).le
    · exact (ddMultOf_pos _).le
    · exact he
  · intro s e slp wr conf corr2 he hm hcap hconf hcorr
    rw [calc_size_product, calc_size_product]
    refine sizeFactors_le _ _ _ _ _ _ _ _ _ _ _ _ _
      ?_ ?_ ?_ ?_ ?_ ?_ ?_ ?_ ?_ ?_ ?_ ?_ ?_ ?_ ?_ ?_ ?_
    · exact le_refl _
    · exact le_refl _
    · apply correlationMultiplier_antitone
      simp only [RiskState.portfolio_correlation_score]
      split_ifs with hL
      · exact le_refl 0
      · exact hcorr
    · exact le_refl _
    · exact le_refl _
    · exact le_refl _
    · exact (exposureMultiplier_pos _).le
    · exact (correlationMultiplier_pos _).le
    · exact (volatility_multiplier_pos _).le
    · exact (ddMultOf_pos _).le
    · exact (lossMultOf_pos _).le
    · exact preValue_nonneg _ _ _ _ _ hcap hm hconf
    · exact (exposureMultiplier_pos _).le
    · exact (correlationMultiplier_pos _).le
    · exact (volatility_multiplier_pos _).le
    · exact (ddMultOf_pos _).le
    · exact he
  · intro s e slp wr conf losses2 he hm hcap hconf hloss
    rw [calc_size_product, calc_size_product]
    refine sizeFactors_le _ _ _ _ _ _ _ _ _ _ _ _ _
      ?_ ?_ ?_ ?_ ?_ ?_ ?_ ?_ ?_ ?_ ?_ ?_ ?_ ?_ ?_ ?_ ?_
    · exact le_refl _
    · exact le_refl _
    · exact le_refl _
    · exact le_refl _
    · exact le_refl _
    · exact lossMultOf_antitone hloss
    · exact (exposureMultiplier_pos _).le
    · exact (correlationMultiplier_pos _).le
    · exact (volatility_multiplier_pos _).le
    · exact (ddMultOf_pos _).le
    · exact (lossMultOf_pos _).le
    · exact preValue_nonneg _ _ _ _ _ hcap hm hconf
    · exact (exposureMultiplier_pos _).le
    · exact (correlationMultiplier_pos _).le
    · exact (volatility_multiplier_pos _).le
    · exact (ddMultOf_pos _).le
    · exact he

/-- Witness for C4: at a concrete state, lowering capital to 90 with peak
raised to 110, raising the correlation score to 0.7, and raising the loss
streak to 3 each yield a size no larger than the baseline. -/
theorem c4_witness :
    ((RiskState.calculate_position_size ⟨0.006, 90, 110, [], 0, none, [], 0⟩
        10 0.0035 0.55 1).1 ≤
      (RiskState.calculate_position_size ⟨0.006, 100, 100, [], 0, none, [], 0⟩
        10 0.0035 0.55 1).1) ∧
    ((RiskState.calculate_position_size ⟨0.006, 100, 100, [], 0.7, none, [], 0⟩
        10 0.0035 0.55 1).1 ≤
      (RiskState.calculate_position_size ⟨0.006, 100, 100, [], 0, none, [], 0⟩
        10 0.0035 0.55 1).1) ∧
    ((RiskState.calculate_position_size ⟨0.006, 100, 100, [], 0, none, [], 3⟩
        10 0.0035 0.55 1).1 ≤
      (RiskState.calculate_position_size ⟨0.006, 100, 100, [], 0, none, [], 0⟩
        10 0.0035 0.55 1).1) :=
  ⟨c4_derating_monotone.1 ⟨0.006, 100, 100, [], 0, none, [], 0⟩ 10 0.0035 0.55 1 90 110
      (by norm_num) (by norm_num) (by norm_num) (by norm_num)
      (by norm_num) (by norm_num) (by norm_num) (by norm_num),
    c4_derating_monotone.2.1 ⟨0.006, 100, 100, [], 0, none, [], 0⟩ 10 0.0035 0.55 1 0.7
      (by norm_num) (by norm_num) (by norm_num) (by norm_num) (by norm_num),
    c4_derating_monotone.2.2 ⟨0.006, 100, 100, [], 0, none, [], 0⟩ 10 0.0035 0.55 1 3
      (by norm_num) (by norm_num) (by norm_num) (by norm_num) (by norm_num)⟩

/-- The size computed at the C9 counterexample state is `0.75 / entry_price`:
with 100 capital the pre-derating value is `0.6 * 1.25 = 0.75` and every
derating multiplier is 1. -/
lemma c9_size_formula (entry_price : ℚ) :
    (RiskState.calculate_position_size ⟨0.006, 100, 100, [], 0, none, [], 0⟩
      entry_price 0.0035 0.55 1).1 = 0.75 / entry_price := by
  rw [calc_size_product]
  norm_num [preValue, kellyFractionOf, exposureMultiplier, correlationMultiplier,
    RiskState.total_exposure, RiskState.portfolio_correlation_score,
    RiskState.volatility_multiplier, RiskState.drawdown_multiplier,
    RiskState.consecutive_loss_multiplier, ddMultOf, lossMultOf]

/-- C9 (counterexample): no positive minimum lot size bounds the returned
quantity from below — `calculate_position_size` applies no flooring, and the
quantity `0.75 / entry_price` becomes arbitrarily small as the entry price
grows. -/
theorem c9_counterexample :
    ¬ ∃ min_lot : ℚ, 0 < min_lot ∧
      ∀ entry_price : ℚ, 0 < entry_price →
        min_lot ≤ (RiskState.calculate_position_size
          ⟨0.006, 100, 100, [], 0, none, [], 0⟩ entry_price 0.0035 0.55 1).1 := by
  rintro ⟨m, hm, hall⟩
  have hpos : (0:ℚ) < 1 + 0.75 / m := by positivity
  have h := hall (1 + 0.75 / m) hpos
  rw [c9_size_formula] at h
  have hlt : (0.75 : ℚ) / (1 + 0.75 / m) < m := by
    rw [div_lt_iff hpos]
    have hexp : m * (1 + 0.75 / m) = m + 0.75 := by
      field_simp
    rw [hexp]
    linarith
  exact absurd h (not_le.2 hlt)

/-- C9 (amended): the returned quantity equals the computed position value
divided by the entry price, with no minimum-lot flooring applied — so the
quantity can be smaller than any positive lot size. -/
theorem c9_quantity_value_over_price_no_floor :
    (∀ (s : RiskState) (entry_price stop_loss_pct win_rate confidence : ℚ),
      entry_price ≠ 0 →
      entry_price *
          (s.calculate_position_size entry_price stop_loss_pct win_rate confidence).1 =
        (s.calculate_position_size entry_price stop_loss_pct win_rate confidence).2.final_value) ∧
    (∀ m : ℚ, 0 < m → ∃ entry_price : ℚ, 0 < entry_price ∧
      (RiskState.calculate_position_size ⟨0.006, 100, 100, [], 0, none, [], 0⟩
        entry_price 0.0035 0.55 1).1 < m) := by
  constructor
  · intro s e slp wr conf he
    simp only [RiskState.calculate_position_size]
    rw [mul_comm, div_mul_cancel₀ _ he]
  · intro m hm
    have hpos : (0:ℚ) < 1 + 0.75 / m := by positivity
    refine ⟨1 + 0.75 / m, hpos, ?_⟩
    rw [c9_size_formula]
    rw [div_lt_iff hpos]
    have hexp : m * (1 + 0.75 / m) = m + 0.75 := by field_simp
    rw [hexp]
    linarith

/-- Witness for C9 (amended): at entry price 2 the quantity times the price
recovers the final value, and a quantity below lot size 0.001 occurs. -/
theorem c9_witness :
    (2 * (RiskState.calculate_position_size ⟨0.006, 100, 100, [], 0, none, [], 0⟩
        2 0.0035 0.55 1).1 =
      (RiskState.calculate_position_size ⟨0.006, 100, 100, [], 0, none, [], 0⟩
        2 0.0035 0.55 1).2.final_value) ∧
    (∃ entry_price : ℚ, 0 < entry_price ∧
      (RiskState.calculate_position_size ⟨0.006, 100, 100, [], 0, none, [], 0⟩
        entry_price 0.0035 0.55 1).1 < 0.001) :=
  ⟨c9_quantity_value_over_price_no_floor.1 ⟨0.006, 100, 100, [], 0, none, [], 0⟩
      2 0.0035 0.55 1 (by norm_num),
    c9_quantity_value_over_price_no_floor.2 0.001 (by norm_num)⟩

/-- `core/adaptive_strategy.py`, `MarketRegime`. -/
inductive MarketRegime where
  | BULL | BEAR | RANGING | VOLATILE | BREAKOUT | UNKNOWN
deriving Repr, DecidableEq

/-- `core/adaptive_strategy.py`, `StrategyMode`. -/
inductive StrategyMode where
  | AGGRESSIVE | DEFENSIVE | SCALPING | MOMENTUM | SAFE
deriving Repr, DecidableEq

/-- `core/adaptive_strategy.py`, `StrategyParameters`. -/
structure StrategyParameters where
  min_signal_strength : ℚ
  min_confluence : ℕ
  take_profit_pct : ℚ
  stop_loss_pct : ℚ
  position_size_multiplier : ℚ
  leverage_multiplier : ℚ
  max_hold_time : ℕ
  min_volume_ratio : ℚ
  max_bb_width : ℚ
  mode : StrategyMode
deriving Repr, DecidableEq

/-- `np.diff(prices) / prices[:-1]`: the step returns of a price series. -/
def diffReturns (prices : List ℚ) : List ℚ :=
  (prices.zip prices.tail).map (fun pr => (pr.2 - pr.1) / pr.1)

/-- Population variance (`np.std` squared).  The source compares `np.std`
against the thresholds 0.03 / 0.015; the embedding compares the variance
against the squared thresholds, which is equivalent for a nonnegative
standard deviation. -/
def popVar (l : List ℚ) : ℚ := listMean (l.map (fun x => (x - listMean l) ^ 2))

/-- The `vol` statistic of `detect_regime`, squared: variance of the last 20
step returns (of all of them when fewer than 20 exist). -/
def volSqOf (prices : List ℚ) : ℚ :=
  let returns := diffReturns prices
  if 20 ≤ returns.length then popVar (returns.drop (returns.length - 20))
  else popVar returns

/-- The `month_return` statistic of `detect_regime`: cumulative return over
the last 30 samples (over the whole series when shorter). -/
def monthReturnOf (prices : List ℚ) : ℚ :=
  if 30 ≤ prices.length then
    (prices.getD (prices.length - 1) 0 - prices.getD (prices.length - 30) 0) /
      prices.getD (prices.length - 30) 0
  else
    (prices.getD (prices.length - 1) 0 - prices.getD 0 0) / prices.getD 0 0

/-- The `vol_ratio` statistic of `detect_regime`: mean of the last 10 volumes
over the mean of all volumes. -/
def volRatioOf (volumes : List ℚ) : ℚ :=
  let avg_vol := if 0 < volumes.length then listMean volumes else 1
  let recent_vol :=
    if 10 ≤ volumes.length then listMean (volumes.drop (volumes.length - 10))
    else avg_vol
  if 0 < avg_vol then recent_vol / avg_vol else 1

/-- `core/adaptive_strategy.py`, `AdaptiveStrategyEngine.detect_regime`.  The
source also appends to `regime_history` and logs; the returned regime is
modelled.  Standard-deviation thresholds are compared in squared form (see
`popVar`). -/
def detect_regime (symbol : String) (prices volumes : List ℚ) (atr : ℚ) :
    MarketRegime :=
  if prices.length < 50 then MarketRegime.UNKNOWN
  else
    let month_return := monthReturnOf prices
    let volSq := volSqOf prices
    let atr_pct := atr / prices.getD (prices.length - 1) 0
    let vol_ratio := volRatioOf volumes
    if 0.008 < atr_pct ∨ 0.0009 < volSq then MarketRegime.VOLATILE
    else if 0.30 < month_return then MarketRegime.BULL
    else if month_return < -0.30 then MarketRegime.BEAR
    else if |month_return| < 0.10 ∧ volSq < 0.000225 then MarketRegime.RANGING
    else if 1.5 < vol_ratio ∧ 0.10 < |month_return| ∧ |month_return| < 0.30 then
      MarketRegime.BREAKOUT
    else MarketRegime.UNKNOWN

/-- `core/adaptive_strategy.py`, `AdaptiveStrategyEngine._get_default_params`. -/
def defaultParameters : StrategyParameters :=
  ⟨3.8, 3, 0.006, 0.0035, 1.0, 1.0, 240, 0.8, 0.004, StrategyMode.SCALPING⟩

/-- The fixed base parameter table of
`AdaptiveStrategyEngine.get_strategy_parameters` (before the performance and
time-of-day adjustment passes). -/
def baseParameters : MarketRegime → StrategyParameters
  | MarketRegime.BULL => ⟨3.5, 3, 0.008, 0.003, 1.3, 1.0, 300, 0.7, 0.006, StrategyMode.AGGRESSIVE⟩
  | MarketRegime.BEAR => ⟨4.2, 4, 0.003, 0.0015, 0.5, 0.5, 120, 0.9, 0.003, StrategyMode.DEFENSIVE⟩
  | MarketRegime.RANGING => ⟨3.8, 3, 0.005, 0.002, 1.0, 1.0, 240, 0.8, 0.004, StrategyMode.SCALPING⟩
  | MarketRegime.VOLATILE => ⟨4.5, 4, 0.004, 0.0015, 0.4, 0.33, 90, 1.0, 0.003, StrategyMode.SAFE⟩
  | MarketRegime.BREAKOUT => ⟨4.0, 3, 0.007, 0.0025, 1.2, 1.0, 300, 1.2, 0.005, StrategyMode.MOMENTUM⟩
  | MarketRegime.UNKNOWN => defaultParameters

/-- `AdaptiveStrategyEngine._adjust_for_performance`. -/
def adjust_for_performance (params : StrategyParameters) (win_rate : ℚ) :
    StrategyParameters :=
  if 0.65 < win_rate then
    { params with min_signal_strength := params.min_signal_strength * 0.95,
                  take_profit_pct := params.take_profit_pct * 1.1,
                  position_size_multiplier := params.position_size_multiplier * 1.1 }
  else if win_rate < 0.50 then
    { params with min_signal_strength := params.min_signal_strength * 1.1,
                  stop_loss_pct := params.stop_loss_pct * 0.8,
                  take_profit_pct := params.take_profit_pct * 0.9,
                  position_size_multiplier := params.position_size_multiplier * 0.7 }
  else params

/-- `AdaptiveStrategyEngine._adjust_for_time_of_day`; the current UTC hour is
a wall-clock reading, passed explicitly. -/
def adjust_for_time_of_day (params : StrategyParameters) (current_hour : ℕ) :
    StrategyParameters :=
  if 2 ≤ current_hour ∧ current_hour < 6 then
    { params with position_size_multiplier := params.position_size_multiplier * 0.5,
                  min_volume_ratio := max params.min_volume_ratio 1.0 }
  else if 13 ≤ current_hour ∧ current_hour < 17 then
    { params with position_size_multiplier := params.position_size_multiplier * 1.2 }
  else params

/-- `AdaptiveStrategyEngine.get_strategy_parameters` with the regime, win
rate and wall-clock hour passed explicitly. -/
def get_strategy_parameters (regime : MarketRegime) (win_rate : ℚ)
    (current_hour : ℕ) : StrategyParameters :=
  adjust_for_time_of_day (adjust_for_performance (baseParameters regime) win_rate)
    current_hour

/-- A 30-sample price series jumping from 100 to 140 at the second sample and
flat thereafter: cumulative return +40%, last-20-return volatility 0. -/
def c6prices30 : List ℚ := 100 :: List.replicate 29 140

/-- A 50-sample price series: 21 samples at 100 then 29 at 140; its last-30
cumulative return is +40% and its last 20 step returns are all zero. -/
def c6prices50 : List ℚ := List.replicate 21 100 ++ List.replicate 29 140

/-- C6 (counterexample): a 30-sample series satisfying all the premises of
the claim (+40% cumulative return over its 30 samples, last-20-return
volatility 0 < 3%, ATR% = 0.5% ≤ 0.8%) is classified UNKNOWN, not BULL —
`detect_regime` bails out below 50 samples. -/
theorem c6_counterexample :
    c6prices30.length = 30 ∧
    monthReturnOf c6prices30 = 0.4 ∧
    volSqOf c6prices30 < 0.0009 ∧
    0.7 / c6prices30.getD (c6prices30.length - 1) 0 ≤ 0.008 ∧
    detect_regime "BTCUSDT" c6prices30 (List.replicate 30 1) 0.7 =
      MarketRegime.UNKNOWN ∧
    MarketRegime.UNKNOWN ≠ MarketRegime.BULL := by
  decide

/-- C6 (amended): for a series of at least 50 samples whose last-30-sample
cumulative return exceeds +30% (for example +40%), with squared last-20
return volatility at most (3%)² and ATR% at most 0.8%, regime detection
returns BULL; and the BULL base parameter set has a strictly lower minimum
signal-strength threshold than the BEAR base parameter set. -/
theorem c6_bull_regime_and_threshold (symbol : String) (prices volumes : List ℚ)
    (atr : ℚ) (hlen : 50 ≤ prices.length)
    (hatr : atr / prices.getD (prices.length - 1) 0 ≤ 0.008)
    (hvol : volSqOf prices ≤ 0.0009)
    (hbull : 0.30 < monthReturnOf prices) :
    detect_regime symbol prices volumes atr = MarketRegime.BULL ∧
    (baseParameters MarketRegime.BULL).min_signal_strength <
      (baseParameters MarketRegime.BEAR).min_signal_strength := by
  constructor
  · unfold detect_regime
    rw [if_neg (by omega)]
    rw [if_neg (by push_neg; exact ⟨hatr, hvol⟩)]
    rw [if_pos hbull]
  · norm_num [baseParameters]
  
/-- Witness for C6 (amended): the 50-sample series with a +40% jump inside
the last 30 samples is classified BULL, and 3.5 < 4.2. -/
theorem c6_witness :
    detect_regime "BTCUSDT" c6prices50 (List.replicate 50 1) 0.7 =
      MarketRegime.BULL ∧
    (baseParameters MarketRegime.BULL).min_signal_strength <
      (baseParameters MarketRegime.BEAR).min_signal_strength :=
  c6_bull_regime_and_threshold "BTCUSDT" c6prices50 (List.replicate 50 1) 0.7
    (by decide) (by decide) (by decide) (by decide)

/-- `core/event_manager.py`, `EventSeverity`. -/
inductive EventSeverity where
  | CRITICAL | HIGH | MEDIUM | LOW | CLEAR
deriving Repr, DecidableEq

/-- `core/event_manager.py`, `MarketEvent` (the fields the decision engine
reads; `scheduled_time` in seconds; the type/description/impact/confidence
fields play no role in `get_trading_decision`). -/
structure MarketEvent where
  name : String
  severity : EventSeverity
  scheduled_time : ℚ
deriving Repr, DecidableEq

/-- `MarketEvent.minutes_until` with the wall clock passed explicitly. -/
def MarketEvent.minutes_until (e : MarketEvent) (now : ℚ) : ℚ :=
  (e.scheduled_time - now) / 60

/-- `EventManager.get_sentiment_signal` (the human-readable message is
omitted). -/
structure SentimentSignal where
  level : String
  action : String
  position_multiplier : ℚ
deriving Repr, DecidableEq

/-- `core/event_manager.py`, `EventManager.get_sentiment_signal`. -/
def get_sentiment_signal (fear_greed_index : ℤ) : SentimentSignal :=
  if fear_greed_index < 20 then ⟨"extreme_fear", "buy_opportunity", 1.5⟩
  else if fear_greed_index < 40 then ⟨"fear", "cautious_buy", 1.2⟩
  else if fear_greed_index < 60 then ⟨"neutral", "normal", 1.0⟩
  else if fear_greed_index < 80 then ⟨"greed", "reduce_risk", 0.8⟩
  else ⟨"extreme_greed", "high_risk", 0.5⟩

/-- The decision dict of `EventManager.get_trading_decision` (the formatted
`reason` string and the echoed `event` are omitted). -/
structure TradingDecision where
  status : String
  action : String
  position_size_multiplier : ℚ
  leverage_multiplier : ℚ
  next_check : ℕ
deriving Repr, DecidableEq

/-- The `for event in critical_events` loop of `get_trading_decision`: the
first CRITICAL event falling in one of the three windows decides. -/
def criticalPass (events : List MarketEvent) (now : ℚ) : Option TradingDecision :=
  match events with
  | [] => none
  | e :: rest =>
    let minutes_until := e.minutes_until now
    if 0 ≤ minutes_until ∧ minutes_until ≤ 30 then
      some ⟨"EMERGENCY", "close_all", 0.0, 0.33, 5⟩
    else if 30 < minutes_until ∧ minutes_until ≤ 60 then
      some ⟨"PAUSE", "reduce_50", 0.25, 0.5, 10⟩
    else if 60 < minutes_until ∧ minutes_until ≤ 120 then
      some ⟨"CAUTION", "reduce_25", 0.5, 1.0, 15⟩
    else criticalPass rest now

/-- The `for event in high_events` loop of `get_trading_decision`. -/
def highPass (events : List MarketEvent) (now : ℚ) : Option TradingDecision :=
  match events with
  | [] => none
  | e :: rest =>
    let minutes_until := e.minutes_until now
    if 0 ≤ minutes_until ∧ minutes_until ≤ 60 then
      some ⟨"CAUTION", "reduce_25", 0.5, 0.67, 15⟩
    else highPass rest now

/-- `core/event_manager.py`, `EventManager.get_trading_decision` with the
event list, the wall clock and the cached Fear & Greed index passed
explicitly.  The `_update_events_if_needed` refresh that sorts the event list
by `scheduled_time` is reflected by the sortedness hypothesis of the C7
theorem. -/
def get_trading_decision (events : List MarketEvent) (now : ℚ)
    (fear_greed_index : ℤ) : TradingDecision :=
  match criticalPass
      (events.filter (fun e => decide (e.severity = EventSeverity.CRITICAL))) now with
  | some d => d
  | none =>
    match highPass
        (events.filter (fun e => decide (e.severity = EventSeverity.HIGH))) now with
    | some d => d
    | none =>
      let sentiment := get_sentiment_signal fear_greed_index
      if sentiment.level = "extreme_greed" then
        ⟨"CAUTION", "reduce_risk", 0.5, 0.67, 30⟩
      else ⟨"CLEAR", "normal", sentiment.position_multiplier, 1.0, 60⟩

lemma criticalPass_emergency (l : List MarketEvent) (now : ℚ)
    (hsorted : l.Pairwise (fun a b => a.scheduled_time ≤ b.scheduled_time))
    (e : MarketEvent) (hmem : e ∈ l)
    (h0 : 0 ≤ e.minutes_until now) (h30 : e.minutes_until now ≤ 30) :
    criticalPass l now = some ⟨"EMERGENCY", "close_all", 0.0, 0.33, 5⟩ := by
  induction l with
  | nil => cases hmem
  | cons x rest ih =>
    rw [criticalPass]
    rcases List.mem_cons.1 hmem with rfl | hmemr
    · rw [if_pos ⟨h0, h30⟩]
    · have hxe : x.scheduled_time ≤ e.scheduled_time :=
        (List.pairwise_cons.1 hsorted).1 e hmemr
      have hmux : x.minutes_until now ≤ e.minutes_until now := by
        unfold MarketEvent.minutes_until
        exact (div_le_div_right (by norm_num)).2 (by linarith)
      by_cases hx0 : 0 ≤ x.minutes_until now
      · rw [if_pos ⟨hx0, hmux.trans h30⟩]
      · rw [if_neg (fun h => hx0 h.1),
          if_neg (fun h => hx0 (by linarith [h.1])),
          if_neg (fun h => hx0 (by linarith [h.1]))]
        exact ih (List.pairwise_cons.1 hsorted).2 hmemr

/-- C7: whenever a CRITICAL scheduled event lies between 0 and 30 minutes in
the future (and the event list is time-sorted, as the event refresh
guarantees), the trading decision is status EMERGENCY with position-size
multiplier 0 and the force-close action `close_all`. -/
theorem c7_critical_event_within_30min_emergency (events : List MarketEvent)
    (now : ℚ) (fear_greed_index : ℤ)
    (hsorted : events.Pairwise (fun a b => a.scheduled_time ≤ b.scheduled_time))
    (e : MarketEvent) (hmem : e ∈ events)
    (hcrit : e.severity = EventSeverity.CRITICAL)
    (h0 : 0 ≤ e.minutes_until now) (h30 : e.minutes_until now ≤ 30) :
    get_trading_decision events now fear_greed_index =
      ⟨"EMERGENCY", "close_all", 0.0, 0.33, 5⟩ := by
  unfold get_trading_decision
  rw [criticalPass_emergency _ now (hsorted.filter _) e
    (List.mem_filter.2 ⟨hmem, by simp [hcrit]⟩) h0 h30]

/-- Witness for C7: a single CRITICAL event 20 minutes out yields EMERGENCY
with multiplier 0 and `close_all`. -/
theorem c7_witness :
    get_trading_decision [⟨"FOMC Rate Decision", EventSeverity.CRITICAL, 1200⟩] 0 50 =
      ⟨"EMERGENCY", "close_all", 0.0, 0.33, 5⟩ :=
  c7_critical_event_within_30min_emergency _ 0 50
    (List.pairwise_singleton _ _)
    ⟨"FOMC Rate Decision", EventSeverity.CRITICAL, 1200⟩
    (List.mem_singleton.2 rfl) rfl (by decide) (by decide)

/-- One OHLCV candle; timestamps are rational seconds.  The engine reads only
`timestamp`, `close`, `high`, `low`, `volume` (the open column is unused). -/
structure Candle where
  timestamp : ℚ
  high : ℚ
  low : ℚ
  close : ℚ
  volume : ℚ
deriving Repr, DecidableEq

/-- The signals dict computed by `BacktestEngine._calculate_signals` (the
fields its entry/exit deciders read).  The indicator pipeline itself (RSI,
Bollinger with a square root, MACD, ATR over numpy floats) is kept abstract:
the engine below is parametric in `calcSignals : List Candle → SignalsView`,
and every theorem holds for every such deterministic signal function — in
particular for the one the source computes. -/
structure SignalsView where
  rsi : ℚ
  bb_position : ℚ
  macd : ℚ
  macd_signal : ℚ
  macd_histogram : ℚ
  ema_fast : ℚ
  ema_slow : ℚ
  volume_ratio : ℚ
deriving Repr, DecidableEq

/-- `config/strategy_constants.py`, `StrategyConstants.RSI_OVERSOLD`. -/
def RSI_OVERSOLD : ℚ := 30

/-- `config/strategy_constants.py`, `StrategyConstants.RSI_OVERBOUGHT`. -/
def RSI_OVERBOUGHT : ℚ := 70

/-- `config/strategy_constants.py`, `StrategyConstants.VOLUME_MULTIPLIER`. -/
def VOLUME_MULTIPLIER : ℚ := 1.5

/-- The optional `strategy_params` dict passed to `run_backtest`: the keys the
engine `.get`s, each optional with the source's defaults applied at use. -/
structure StratParams where
  strategy_mode : Option String
  min_signal_strength : Option ℚ
  take_profit_pct : Option ℚ
  stop_loss_pct : Option ℚ
  time_stop_seconds : Option ℚ
deriving Repr, DecidableEq

/-- `strategy_params and strategy_params.get('strategy_mode') == 'aggressive'`. -/
def isAggressive (params : Option StratParams) : Bool :=
  match params with
  | none => false
  | some p => p.strategy_mode == some "aggressive"

/-- The max hold time read by the time-stop check: `time_stop_seconds`
(default 600) in aggressive mode, else 3600. -/
def maxHoldOf (params : Option StratParams) : ℚ :=
  if isAggressive params then (params.bind (fun p => p.time_stop_seconds)).getD 600
  else 3600

/-- The confluence count of `BacktestEngine._should_enter_long`. -/
def confluenceLong (s : SignalsView) : ℕ :=
  (if s.rsi < RSI_OVERSOLD then 1 else 0) +
  (if s.bb_position < 0.2 then 1 else 0) +
  (if s.macd_signal < s.macd ∧ 0 < s.macd_histogram then 1 else 0) +
  (if s.ema_slow < s.ema_fast then 1 else 0) +
  (if VOLUME_MULTIPLIER < s.volume_ratio then 1 else 0)

/-- `backtest/backtest_engine.py`, `BacktestEngine._should_enter_long`. -/
def should_enter_long (s : SignalsView) (min_confluence : ℚ) : Bool :=
  decide (min_confluence ≤ (confluenceLong s : ℚ))

/-- The confluence count of `BacktestEngine._should_enter_short`. -/
def confluenceShort (s : SignalsView) : ℕ :=
  (if RSI_OVERBOUGHT < s.rsi then 1 else 0) +
  (if 0.8 < s.bb_position then 1 else 0) +
  (if s.macd < s.macd_signal ∧ s.macd_histogram < 0 then 1 else 0) +
  (if s.ema_fast < s.ema_slow then 1 else 0) +
  (if VOLUME_MULTIPLIER < s.volume_ratio then 1 else 0)

/-- `backtest/backtest_engine.py`, `BacktestEngine._should_enter_short`. -/
def should_enter_short (s : SignalsView) (min_confluence : ℚ) : Bool :=
  decide (min_confluence ≤ (confluenceShort s : ℚ))

/-- `backtest/backtest_engine.py`, `BacktestEngine._should_exit`.  Note the
source compares `position.side == 'LONG'` although the engine stores sides as
"BUY"/"SELL", so the body never fires for positions it opened itself. -/
def should_exit (s : SignalsView) (position : Position)
    (strategy_params : Option StratParams) : Bool :=
  if position.side = "LONG" then
    if RSI_OVERBOUGHT < s.rsi then true
    else if 0.9 < s.bb_position then true
    else if s.macd < s.macd_signal then true
    else false
  else false

/-- `BacktestEngine.__init__` configuration. -/
structure BTConfig where
  initial_balance : ℚ
  commission_rate : ℚ
  slippage_pct : ℚ
  max_positions : ℕ
  position_size_pct : ℚ
deriving Repr, DecidableEq

/-- One record of the trade ledger built by `_close_position`. -/
structure Trade where
  symbol : String
  side : String
  entry_time : ℚ
  exit_time : ℚ
  entry_price : ℚ
  exit_price : ℚ
  quantity : ℚ
  pnl : ℚ
  pnl_pct : ℚ
  reason : String
  duration_seconds : ℚ
deriving Repr, DecidableEq

/-- One sample of the equity curve built by `_record_equity`. -/
structure EquityPoint where
  timestamp : ℚ
  balance : ℚ
  equity : ℚ
  open_positions : ℕ
deriving Repr, DecidableEq

/-- The mutable state of `BacktestEngine`: balance, the symbol-keyed open
position dict, the trade ledger, the equity curve, the fee accumulators, the
`_current_strategy_params` attribute, and the stream of wall-clock readings
(`datetime.now(UTC)`) that `Position.__init__` consumes, one per position
creation. -/
structure BTState where
  balance : ℚ
  positions : List (String × Position)
  trades : List Trade
  equity_curve : List EquityPoint
  total_commission : ℚ
  total_slippage : ℚ
  cur_params : Option StratParams
  clock : ℕ → ℚ

/-- `backtest/backtest_engine.py`, `BacktestEngine._open_position` (always
called with side `'LONG'`; the written form keeps the source's side
branches). -/
def openPosition (cfg : BTConfig) (st : BTState) (symbol side : String)
    (timestamp : ℚ) (candle : Candle) (strategy_params : Option StratParams) :
    BTState :=
  let entry_price := candle.close
  let entry_price :=
    if side = "LONG" then entry_price * (1 + cfg.slippage_pct)
    else entry_price * (1 - cfg.slippage_pct)
  let position_value := st.balance * cfg.position_size_pct
  let quantity := position_value / entry_price
  let commission := position_value * cfg.commission_rate
  let sltp :=
    if isAggressive strategy_params then
      let tp_pct := (strategy_params.bind (fun p => p.take_profit_pct)).getD 0.012
      let sl_pct := (strategy_params.bind (fun p => p.stop_loss_pct)).getD 0.006
      if side = "LONG" then (entry_price * (1 - sl_pct), entry_price * (1 + tp_pct))
      else (entry_price * (1 + sl_pct), entry_price * (1 - tp_pct))
    else
      let atr := candle.close * 0.01
      (if side = "LONG" then entry_price - 2 * atr else entry_price + 2 * atr,
       if side = "LONG" then entry_price + 3 * atr else entry_price - 3 * atr)
  let position := mkPosition symbol (if side = "LONG" then "BUY" else "SELL")
    entry_price quantity sltp.1 sltp.2 3 none (st.clock 0)
  { st with positions := dictSet st.positions symbol position,
            total_commission := st.total_commission + commission,
            clock := fun n => st.clock (n + 1) }

/-- `backtest/backtest_engine.py`, `BacktestEngine._close_position` (a no-op
when the symbol is untracked).  The source's `position.side == 'LONG'`
branches are kept although the stored side is "BUY"/"SELL". -/
def closePosition (cfg : BTConfig) (st : BTState) (symbol : String)
    (timestamp exit_price_arg : ℚ) (reason : String) : BTState :=
  match dictGet st.positions symbol with
  | none => st
  | some position =>
    let exit_price :=
      if position.side = "LONG" then exit_price_arg * (1 - cfg.slippage_pct)
      else exit_price_arg * (1 + cfg.slippage_pct)
    let pnl :=
      if position.side = "LONG" then (exit_price - position.entry_price) * position.quantity
      else (position.entry_price - exit_price) * position.quantity
    let position_value := exit_price * position.quantity
    let commission := position_value * cfg.commission_rate
    let pnl := pnl - commission
    let pnl_pct := pnl / (position.entry_price * position.quantity) * 100
    let duration_seconds := timestamp - position.entry_time
    let trade : Trade := ⟨symbol, position.side, position.entry_time, timestamp,
      position.entry_price, exit_price, position.quantity, pnl, pnl_pct, reason,
      duration_seconds⟩
    { st with balance := st.balance + pnl,
              positions := dictPop st.positions symbol,
              trades := st.trades ++ [trade],
              total_commission := st.total_commission + commission }

/-- The per-position body of `BacktestEngine._check_exit_signals`: the first
matching exit condition, as (price, reason). -/
def exitReason (calcSignals : List Candle → SignalsView)
    (cur_params : Option StratParams) (timestamp : ℚ) (position : Position)
    (candle : Candle) (historical : List Candle) : Option (ℚ × String) :=
  let current_price := candle.close
  if position.stop_loss ≠ 0 ∧ current_price ≤ position.stop_loss then
    some (current_price, "STOP_LOSS")
  else if position.take_profit ≠ 0 ∧ position.take_profit ≤ current_price then
    some (current_price, "TAKE_PROFIT")
  else if maxHoldOf cur_params < timestamp - position.entry_time then
    some (current_price, "TIME_EXIT")
  else if should_exit (calcSignals historical) position cur_params then
    some (current_price, "SIGNAL_EXIT")
  else none

/-- The `current_data` dict built per timestamp in `run_backtest`: for each
symbol with a candle at this timestamp, that candle and the history up to and
including it. -/
def currentData (data : List (String × List Candle)) (t : ℚ) :
    List (String × Candle × List Candle) :=
  data.foldr (fun sd acc =>
    match (sd.2.filter (fun c => decide (c.timestamp = t))).head? with
    | none => acc
    | some candle =>
      (sd.1, candle, sd.2.filter (fun c => decide (c.timestamp ≤ t))) :: acc) []

/-- `backtest/backtest_engine.py`, `BacktestEngine._check_exit_signals`:
collect the positions to close (in position-dict order), then close them. -/
def checkExitSignals (cfg : BTConfig) (calcSignals : List Candle → SignalsView)
    (st : BTState) (timestamp : ℚ)
    (current_data : List (String × Candle × List Candle)) : BTState :=
  let positions_to_close : List (String × ℚ × String) :=
    st.positions.foldr (fun sp acc =>
      match current_data.find? (fun e => e.1 == sp.1) with
      | none => acc
      | some e =>
        match exitReason calcSignals st.cur_params timestamp sp.2 e.2.1 e.2.2 with
        | none => acc
        | some pr => (sp.1, pr.1, pr.2) :: acc) []
  positions_to_close.foldl
    (fun s pr => closePosition cfg s pr.1 timestamp pr.2.1 pr.2.2) st

/-- `backtest/backtest_engine.py`, `BacktestEngine._check_entry_signals`.  The
short branch is the source's commented-out call: the signal is evaluated and
discarded (`pass`). -/
def checkEntrySignals (cfg : BTConfig) (calcSignals : List Candle → SignalsView)
    (st : BTState) (timestamp : ℚ)
    (current_data : List (String × Candle × List Candle))
    (strategy_params : Option StratParams) : BTState :=
  current_data.foldl (fun s entry =>
    if (dictGet s.positions entry.1).isSome then s
    else if entry.2.2.length < 50 then s
    else
      let signals := calcSignals entry.2.2
      let min_signal_strength : ℚ :=
        if isAggressive strategy_params then
          (strategy_params.bind (fun p => p.min_signal_strength)).getD 3
        else 3
      if should_enter_long signals min_signal_strength then
        openPosition cfg s entry.1 "LONG" timestamp entry.2.1 strategy_params
      else if should_enter_short signals min_signal_strength then s
      else s) st

/-- `backtest/backtest_engine.py`, `BacktestEngine._record_equity` (the source
leaves `unrealized_pnl` at 0). -/
def recordEquity (st : BTState) (timestamp : ℚ) : BTState :=
  { st with equity_curve := st.equity_curve ++
      [⟨timestamp, st.balance, st.balance + 0, st.positions.length⟩] }

/-- `backtest/backtest_engine.py`, `BacktestEngine._process_timestamp`: exits,
then entries while below the position cap, then store the strategy params,
then record equity. -/
def processTimestamp (cfg : BTConfig) (calcSignals : List Candle → SignalsView)
    (st : BTState) (timestamp : ℚ)
    (current_data : List (String × Candle × List Candle))
    (strategy_params : Option StratParams) : BTState :=
  let st1 := checkExitSignals cfg calcSignals st timestamp current_data
  let st2 :=
    if st1.positions.length < cfg.max_positions then
      checkEntrySignals cfg calcSignals st1 timestamp current_data strategy_params
    else st1
  recordEquity { st2 with cur_params := strategy_params } timestamp

/-- `backtest/backtest_engine.py`, `BacktestEngine._close_all_positions`:
snapshot the open symbols, then close each at its own entry price
("Use entry price as approximation for exit") with reason `BACKTEST_END`. -/
def closeAllPositions (cfg : BTConfig) (st : BTState) (timestamp : ℚ) : BTState :=
  (st.positions.map Prod.fst).foldl (fun s symbol =>
    match dictGet s.positions symbol with
    | none => s
    | some position =>
      closePosition cfg s symbol timestamp position.entry_price "BACKTEST_END") st

/-- Ascending insertion keeping order by value. -/
def insertAsc (x : ℚ) : List ℚ → List ℚ
  | [] => [x]
  | y :: ys => if x ≤ y then x :: y :: ys else y :: insertAsc x ys

/-- Ascending sort of a rational list. -/
def sortAsc (l : List ℚ) : List ℚ := l.foldl (fun acc x => insertAsc x acc) []

/-- Python `list(set(xs))` over rationals, first-occurrence order (the result
is sorted afterwards, so the set iteration order is immaterial here). -/
def pySetQ (l : List ℚ) : List ℚ :=
  l.foldl (fun acc s => if s ∈ acc then acc else acc ++ [s]) []

/-- `BacktestEngine._get_common_timestamps`: `sorted(set(...))` over the union
of all symbols' timestamps. -/
def commonTimestamps (data : List (String × List Candle)) : List ℚ :=
  sortAsc (pySetQ (data.foldl (fun acc sd => acc ++ sd.2.map Candle.timestamp) []))

/-- The state after `run_backtest`: the timestamp loop followed by
`_close_all_positions` at the final loop timestamp.  On an empty timestamp
list the source raises `NameError` (the loop variable is unbound);
`getLastD 0` stands in for that unreachable case. -/
def runBacktestState (cfg : BTConfig) (calcSignals : List Candle → SignalsView)
    (data : List (String × List Candle)) (strategy_params : Option StratParams)
    (clock : ℕ → ℚ) : BTState :=
  let timestamps := commonTimestamps data
  let st0 : BTState := ⟨cfg.initial_balance, [], [], [], 0, 0, none, clock⟩
  let st := timestamps.foldl
    (fun s t => processTimestamp cfg calcSignals s t (currentData data t) strategy_params)
    st0
  closeAllPositions cfg st (timestamps.getLastD 0)

/-- The result dict of `run_backtest`. -/
structure BTResult where
  trades : List Trade
  equity_curve : List EquityPoint
  final_balance : ℚ
  total_commission : ℚ
  total_slippage : ℚ
deriving Repr, DecidableEq

/-- `backtest/backtest_engine.py`, `BacktestEngine.run_backtest`. -/
def run_backtest (cfg : BTConfig) (calcSignals : List Candle → SignalsView)
    (data : List (String × List Candle)) (strategy_params : Option StratParams)
    (clock : ℕ → ℚ) : BTResult :=
  let st := runBacktestState cfg calcSignals data strategy_params clock
  ⟨st.trades, st.equity_curve, st.balance, st.total_commission, st.total_slippage⟩

/-- A constant signal view yielding long confluence 3 (RSI oversold, low BB
position, bullish MACD) and short confluence 0. -/
def btSigEx : SignalsView := ⟨0, 0, 1, 0, 1, 0, 0, 0⟩

/-- A small backtest configuration (default commission/slippage rates of
`BacktestEngine.__init__`). -/
def btCfgEx : BTConfig := ⟨10000, 0.001, 0.0005, 3, 0.33⟩

/-- One instrument with 50 flat candles at close 100, timestamps 1..50. -/
def btDataEx : List (String × List Candle) :=
  [("BTCUSDT", (List.range 50).map (fun i => ⟨(i : ℚ) + 1, 100, 100, 100, 1⟩))]


lemma foldl_preserve {σ β : Type} (P : σ → Prop) (f : σ → β → σ)
    (l : List β) (s : σ) (h : P s) (hstep : ∀ s b, P s → P (f s b)) :
    P (l.foldl f s) := by
  induction l generalizing s with
  | nil => exact h
  | cons b rest ih => exact ih _ (hstep s b h)

lemma mem_dictSet {α : Type} (d : List (String × α)) (k : String) (v : α)
    (e : String × α) (h : e ∈ dictSet d k v) : e = (k, v) ∨ e ∈ d := by
  unfold dictSet at h
  split_ifs at h with hf
  · obtain ⟨x, hx, hfx⟩ := List.mem_map.1 h
    by_cases hk : x.1 == k
    · rw [if_pos hk] at hfx; exact Or.inl hfx.symm
    · rw [if_neg hk] at hfx; exact Or.inr (hfx ▸ hx)
  · rcases List.mem_append.1 h with h1 | h1
    · exact Or.inr h1
    · exact Or.inl (by simpa using h1)

lemma mem_dictPop {α : Type} (d : List (String × α)) (k : String)
    (e : String × α) (h : e ∈ dictPop d k) : e ∈ d :=
  (List.eraseP_sublist d).subset h

lemma dictGet_mem {α : Type} (d : List (String × α)) (k : String) (v : α)
    (h : dictGet d k = some v) : ∃ e ∈ d, e.2 = v := by
  unfold dictGet at h
  cases hf : d.find? (fun e => e.1 == k) with
  | none => rw [hf] at h; cases h
  | some e =>
    rw [hf] at h
    exact ⟨e, List.mem_of_find?_eq_some hf, by simpa using h⟩

/-- Invariant: every open position and every recorded trade has side "BUY". -/
def AllBuyState (st : BTState) : Prop :=
  (∀ sp ∈ st.positions, sp.2.side = "BUY") ∧ (∀ tr ∈ st.trades, tr.side = "BUY")

lemma closePosition_allbuy (cfg : BTConfig) (st : BTState) (symbol : String)
    (timestamp price : ℚ) (reason : String) (h : AllBuyState st) :
    AllBuyState (closePosition cfg st symbol timestamp price reason) := by
  unfold closePosition
  cases hg : dictGet st.positions symbol with
  | none => exact h
  | some position =>
    obtain ⟨e, hmem, hev⟩ := dictGet_mem _ _ _ hg
    have hside : position.side = "BUY" := hev ▸ h.1 e hmem
    constructor
    · intro sp hsp
      exact h.1 sp (mem_dictPop _ _ _ hsp)
    · intro tr htr
      rcases List.mem_append.1 htr with h1 | h1
      · exact h.2 tr h1
      · rw [List.mem_singleton.1 h1]
        exact hside

lemma openPosition_allbuy (cfg : BTConfig) (st : BTState) (symbol : String)
    (timestamp : ℚ) (candle : Candle) (strategy_params : Option StratParams)
    (h : AllBuyState st) :
    AllBuyState (openPosition cfg st symbol "LONG" timestamp candle strategy_params) := by
  unfold openPosition
  refine ⟨?_, h.2⟩
  intro sp hsp
  rcases mem_dictSet _ _ _ _ hsp with heq | hmemr
  · rw [heq]; rfl
  · exact h.1 sp hmemr

lemma checkExitSignals_allbuy (cfg : BTConfig) (f : List Candle → SignalsView)
    (st : BTState) (timestamp : ℚ) (cd : List (String × Candle × List Candle))
    (h : AllBuyState st) : AllBuyState (checkExitSignals cfg f st timestamp cd) := by
  unfold checkExitSignals
  exact foldl_preserve _ _ _ _ h
    (fun s pr hs => closePosition_allbuy cfg s pr.1 timestamp pr.2.1 pr.2.2 hs)

lemma checkEntrySignals_allbuy (cfg : BTConfig) (f : List Candle → SignalsView)
    (st : BTState) (timestamp : ℚ) (cd : List (String × Candle × List Candle))
    (strategy_params : Option StratParams)
    (h : AllBuyState st) :
    AllBuyState (checkEntrySignals cfg f st timestamp cd strategy_params) := by
  unfold checkEntrySignals
  refine foldl_preserve _ _ _ _ h ?_
  intro s entry hs
  dsimp only
  split_ifs <;>
    first
    | exact hs
    | exact openPosition_allbuy cfg s entry.1 timestamp entry.2.1 strategy_params hs

lemma processTimestamp_allbuy (cfg : BTConfig) (f : List Candle → SignalsView)
    (st : BTState) (timestamp : ℚ) (cd : List (String × Candle × List Candle))
    (strategy_params : Option StratParams) (h : AllBuyState st) :
    AllBuyState (processTimestamp cfg f st timestamp cd strategy_params) := by
  unfold processTimestamp recordEquity
  have h1 := checkExitSignals_allbuy cfg f st timestamp cd h
  dsimp only
  split_ifs with hlen
  · exact checkEntrySignals_allbuy cfg f _ timestamp cd strategy_params h1
  · exact h1

lemma closeAllPositions_allbuy (cfg : BTConfig) (st : BTState) (timestamp : ℚ)
    (h : AllBuyState st) : AllBuyState (closeAllPositions cfg st timestamp) := by
  unfold closeAllPositions
  refine foldl_preserve _ _ _ _ h ?_
  intro s symbol hs
  cases hg : dictGet s.positions symbol with
  | none => simpa [hg] using hs
  | some position =>
    simpa [hg] using
      closePosition_allbuy cfg s symbol timestamp position.entry_price "BACKTEST_END" hs

lemma runBacktestState_allbuy (cfg : BTConfig) (f : List Candle → SignalsView)
    (data : List (String × List Candle)) (strategy_params : Option StratParams)
    (clock : ℕ → ℚ) : AllBuyState (runBacktestState cfg f data strategy_params clock) := by
  unfold runBacktestState
  refine closeAllPositions_allbuy cfg _ _ ?_
  refine foldl_preserve _ _ _ _ ⟨by simp, by simp⟩ ?_
  intro s t hs
  exact processTimestamp_allbuy cfg f s t (currentData data t) strategy_params hs

/-- C10: the backtest engine never opens a short position — whatever the
signal function, data, parameters and wall clock, every open position and
every trade record in the resulting ledger has side "BUY".  (The short-entry
branch in `_check_entry_signals` is evaluated but its action is commented
out.) -/
theorem c10_backtest_never_short (cfg : BTConfig) (f : List Candle → SignalsView)
    (data : List (String × List Candle)) (strategy_params : Option StratParams)
    (clock : ℕ → ℚ) :
    (∀ tr ∈ (run_backtest cfg f data strategy_params clock).trades, tr.side = "BUY") ∧
    (∀ sp ∈ (runBacktestState cfg f data strategy_params clock).positions,
      sp.2.side = "BUY") := by
  have h := runBacktestState_allbuy cfg f data strategy_params clock
  exact ⟨h.2, h.1⟩

/-- Witness for C10: the concrete 50-candle run produces a trade, and its
side is "BUY". -/
theorem c10_witness :
    (run_backtest btCfgEx (fun _ => btSigEx) btDataEx none (fun _ => 1000)).trades.headD
        ⟨"", "", 0, 0, 0, 0, 0, 0, 0, "", 0⟩ ∈
      (run_backtest btCfgEx (fun _ => btSigEx) btDataEx none (fun _ => 1000)).trades ∧
    ((run_backtest btCfgEx (fun _ => btSigEx) btDataEx none
        (fun _ => 1000)).trades.headD ⟨"", "", 0, 0, 0, 0, 0, 0, 0, "", 0⟩).side = "BUY" :=
  ⟨by decide,
    (c10_backtest_never_short btCfgEx (fun _ => btSigEx) btDataEx none (fun _ => 1000)).1
      _ (by decide)⟩

lemma foldl_preserve_mem {σ β : Type} (P : σ → Prop) (f : σ → β → σ)
    (l : List β) (s : σ) (h : P s) (hstep : ∀ s b, b ∈ l → P s → P (f s b)) :
    P (l.foldl f s) := by
  induction l generalizing s with
  | nil => exact h
  | cons b rest ih =>
    exact ih _ (hstep s b (List.mem_cons_self b rest) h)
      (fun s2 b2 hb2 => hstep s2 b2 (List.mem_cons_of_mem b hb2))

lemma dictSet_keys {α : Type} (d : List (String × α)) (k : String) (v : α) :
    (dictSet d k v).map Prod.fst =
      if (d.find? (fun e => e.1 == k)).isSome then d.map Prod.fst
      else d.map Prod.fst ++ [k] := by
  unfold dictSet
  split_ifs with hf
  · rw [List.map_map]
    apply List.map_congr_left
    intro e _
    by_cases hk : e.1 == k
    · simp only [Function.comp, if_pos hk]
      exact (eq_of_beq hk).symm
    · simp only [Function.comp, if_neg hk]
  · simp

lemma dictGet_isSome_iff_find {α : Type} (d : List (String × α)) (k : String) :
    (dictGet d k).isSome = (d.find? (fun e => e.1 == k)).isSome := by
  unfold dictGet
  cases d.find? (fun e => e.1 == k) <;> rfl

/-- Invariant: the open-position dict has pairwise distinct keys. -/
def KeysNodup (st : BTState) : Prop := (st.positions.map Prod.fst).Nodup

lemma closePosition_keysnodup (cfg : BTConfig) (st : BTState) (symbol : String)
    (timestamp price : ℚ) (reason : String) (h : KeysNodup st) :
    KeysNodup (closePosition cfg st symbol timestamp price reason) := by
  unfold closePosition
  cases hg : dictGet st.positions symbol with
  | none => exact h
  | some position =>
    exact h.sublist ((List.eraseP_sublist _).map Prod.fst)

lemma openPosition_keysnodup (cfg : BTConfig) (st : BTState) (symbol side : String)
    (timestamp : ℚ) (candle : Candle) (strategy_params : Option StratParams)
    (hfresh : (dictGet st.positions symbol).isSome = false) (h : KeysNodup st) :
    KeysNodup (openPosition cfg st symbol side timestamp candle strategy_params) := by
  have hfind : (st.positions.find? (fun e => e.1 == symbol)).isSome = false := by
    rw [← dictGet_isSome_iff_find]; exact hfresh
  unfold KeysNodup openPosition
  dsimp only
  rw [dictSet_keys, if_neg (by simp [hfind])]
  have hnotmem : symbol ∉ st.positions.map Prod.fst := by
    intro hmem
    obtain ⟨e, he, hek⟩ := List.mem_map.1 hmem
    have : st.positions.find? (fun e => e.1 == symbol) ≠ none := by
      intro hnone
      exact absurd (by simp [hek]) (List.find?_eq_none.1 hnone e he)
    cases hfo : st.positions.find? (fun e => e.1 == symbol) with
    | none => exact this hfo
    | some e2 => rw [hfo] at hfind; cases hfind
  rw [List.nodup_append]
  refine ⟨h, List.nodup_singleton _, ?_⟩
  intro a ha hb
  rw [List.mem_singleton] at hb
  subst hb
  exact hnotmem ha

lemma checkExitSignals_keysnodup (cfg : BTConfig) (f : List Candle → SignalsView)
    (st : BTState) (timestamp : ℚ) (cd : List (String × Candle × List Candle))
    (h : KeysNodup st) : KeysNodup (checkExitSignals cfg f st timestamp cd) := by
  unfold checkExitSignals
  exact foldl_preserve _ _ _ _ h
    (fun s pr hs => closePosition_keysnodup cfg s pr.1 timestamp pr.2.1 pr.2.2 hs)

lemma checkEntrySignals_keysnodup (cfg : BTConfig) (f : List Candle → SignalsView)
    (st : BTState) (timestamp : ℚ) (cd : List (String × Candle × List Candle))
    (strategy_params : Option StratParams) (h : KeysNodup st) :
    KeysNodup (checkEntrySignals cfg f st timestamp cd strategy_params) := by
  unfold checkEntrySignals
  refine foldl_preserve _ _ _ _ h ?_
  intro s entry hs
  dsimp only
  by_cases hsome : (dictGet s.positions entry.1).isSome = true
  · rw [if_pos hsome]; exact hs
  · rw [if_neg hsome]
    split_ifs <;>
      first
      | exact hs
      | exact openPosition_keysnodup cfg s entry.1 "LONG" timestamp entry.2.1
          strategy_params (by simpa using hsome) hs

lemma processTimestamp_keysnodup (cfg : BTConfig) (f : List Candle → SignalsView)
    (st : BTState) (timestamp : ℚ) (cd : List (String × Candle × List Candle))
    (strategy_params : Option StratParams) (h : KeysNodup st) :
    KeysNodup (processTimestamp cfg f st timestamp cd strategy_params) := by
  unfold processTimestamp recordEquity
  have h1 := checkExitSignals_keysnodup cfg f st timestamp cd h
  dsimp only
  split_ifs with hlen
  · exact checkEntrySignals_keysnodup cfg f _ timestamp cd strategy_params h1
  · exact h1

lemma closeAll_fold_empty (cfg : BTConfig) (t : ℚ) (ks : List String) (s : BTState)
    (hk : s.positions.map Prod.fst = ks) (hnd : ks.Nodup) :
    (ks.foldl (fun s symbol =>
      match dictGet s.positions symbol with
      | none => s
      | some position =>
        closePosition cfg s symbol t position.entry_price "BACKTEST_END") s).positions =
      [] := by
  induction ks generalizing s with
  | nil => exact List.map_eq_nil.1 hk
  | cons k ks ih =>
    cases hp : s.positions with
    | nil => rw [hp] at hk; cases hk
    | cons e rest =>
      obtain ⟨k', p⟩ := e
      rw [hp] at hk
      injection hk with hk1 hk2
      subst hk1
      have hget : dictGet s.positions k' = some p := by
        rw [hp]; simp [dictGet]
      rw [List.foldl_cons]
      refine ih _ ?_ (List.nodup_cons.1 hnd).2
      show ((match dictGet s.positions k' with
        | none => s
        | some position =>
          closePosition cfg s k' t position.entry_price "BACKTEST_END").positions).map
          Prod.fst = ks
      rw [hget]
      simp only [closePosition, hget]
      show (dictPop s.positions k').map Prod.fst = ks
      rw [hp]
      unfold dictPop
      rw [List.eraseP_cons_of_pos (by simp)]
      exact hk2

/-- Invariant: every ledger trade closed with reason `BACKTEST_END` exited at
its entry price with exit-side slippage applied. -/
def EndTradesOk (cfg : BTConfig) (st : BTState) : Prop :=
  ∀ tr ∈ st.trades, tr.reason = "BACKTEST_END" →
    tr.exit_price = tr.entry_price * (1 + cfg.slippage_pct)

lemma exitReason_ne_end (f : List Candle → SignalsView) (cp : Option StratParams)
    (t : ℚ) (position : Position) (candle : Candle) (hist : List Candle)
    (pr : ℚ × String) (h : exitReason f cp t position candle hist = some pr) :
    pr.2 ≠ "BACKTEST_END" := by
  unfold exitReason at h
  dsimp only at h
  split_ifs at h <;>
    first
    | (injection h with h2; subst h2; simp)
    | cases h

lemma closePosition_endok (cfg : BTConfig) (st : BTState) (symbol : String)
    (timestamp price : ℚ) (reason : String) (hne : reason ≠ "BACKTEST_END")
    (h : EndTradesOk cfg st) :
    EndTradesOk cfg (closePosition cfg st symbol timestamp price reason) := by
  unfold closePosition
  cases hg : dictGet st.positions symbol with
  | none => exact h
  | some position =>
    intro tr htr hrsn
    rcases List.mem_append.1 htr with h1 | h1
    · exact h tr h1 hrsn
    · rw [List.mem_singleton.1 h1] at hrsn
      exact absurd hrsn hne

lemma checkExitSignals_endok (cfg : BTConfig) (f : List Candle → SignalsView)
    (st : BTState) (timestamp : ℚ) (cd : List (String × Candle × List Candle))
    (h : EndTradesOk cfg st) :
    EndTradesOk cfg (checkExitSignals cfg f st timestamp cd) := by
  unfold checkExitSignals
  refine foldl_preserve_mem _ _ _ _ h ?_
  intro s b hb hs
  refine closePosition_endok cfg s b.1 timestamp b.2.1 b.2.2 ?_ hs
  clear hs
  generalize st.positions = ps at hb
  revert hb
  induction ps with
  | nil => intro hb; cases hb
  | cons sp rest ih =>
    intro hb
    rw [List.foldr_cons] at hb
    revert hb
    cases hcd : cd.find? (fun e => e.1 == sp.1) with
    | none => exact fun hb => ih hb
    | some e =>
      dsimp only
      cases hex : exitReason f st.cur_params timestamp sp.2 e.2.1 e.2.2 with
      | none => exact fun hb => ih hb
      | some pr =>
        intro hb
        rcases List.mem_cons.1 hb with rfl | hb2
        · exact exitReason_ne_end f st.cur_params timestamp sp.2 e.2.1 e.2.2 pr hex
        · exact ih hb2

lemma checkEntrySignals_endok (cfg : BTConfig) (f : List Candle → SignalsView)
    (st : BTState) (timestamp : ℚ) (cd : List (String × Candle × List Candle))
    (strategy_params : Option StratParams) (h : EndTradesOk cfg st) :
    EndTradesOk cfg (checkEntrySignals cfg f st timestamp cd strategy_params) := by
  unfold checkEntrySignals
  refine foldl_preserve _ _ _ _ h ?_
  intro s entry hs
  dsimp only
  split_ifs <;>
    first
    | exact hs
    | (intro tr htr hrsn
       exact hs tr htr hrsn)

lemma processTimestamp_endok (cfg : BTConfig) (f : List Candle → SignalsView)
    (st : BTState) (timestamp : ℚ) (cd : List (String × Candle × List Candle))
    (strategy_params : Option StratParams) (h : EndTradesOk cfg st) :
    EndTradesOk cfg (processTimestamp cfg f st timestamp cd strategy_params) := by
  unfold processTimestamp recordEquity
  have h1 := checkExitSignals_endok cfg f st timestamp cd h
  dsimp only
  split_ifs with hlen
  · exact checkEntrySignals_endok cfg f _ timestamp cd strategy_params h1
  · exact h1

lemma closeAllPositions_endok (cfg : BTConfig) (st : BTState) (timestamp : ℚ)
    (h : AllBuyState st ∧ EndTradesOk cfg st) :
    EndTradesOk cfg (closeAllPositions cfg st timestamp) := by
  unfold closeAllPositions
  refine (foldl_preserve (fun s => AllBuyState s ∧ EndTradesOk cfg s) _ _ _ h ?_).2
  intro s symbol hs
  cases hg : dictGet s.positions symbol with
  | none => simpa [hg] using hs
  | some position =>
    obtain ⟨e, hmem, hev⟩ := dictGet_mem _ _ _ hg
    have hside : position.side = "BUY" := hev ▸ hs.1.1 e hmem
    constructor
    · simpa [hg] using
        closePosition_allbuy cfg s symbol timestamp position.entry_price "BACKTEST_END" hs.1
    · show EndTradesOk cfg (closePosition cfg s symbol timestamp position.entry_price
        "BACKTEST_END")
      unfold closePosition
      rw [hg]
      intro tr htr hrsn
      rcases List.mem_append.1 htr with h1 | h1
      · exact hs.2 tr h1 hrsn
      · rw [List.mem_singleton.1 h1]
        show (if position.side = "LONG" then
            position.entry_price * (1 - cfg.slippage_pct)
          else position.entry_price * (1 + cfg.slippage_pct)) =
          position.entry_price * (1 + cfg.slippage_pct)
        rw [if_neg (by rw [hside]; decide)]

/-- C8 (amended): at the end of a backtest run every still-open simulated
position is force-closed — the final position dict is empty — and every trade
recorded with reason `BACKTEST_END` exited at the position's ENTRY price with
exit-side slippage applied ("Use entry price as approximation for exit"), not
at the last known market price. -/
theorem c8_force_close_at_entry_price (cfg : BTConfig)
    (f : List Candle → SignalsView) (data : List (String × List Candle))
    (strategy_params : Option StratParams) (clock : ℕ → ℚ) :
    (runBacktestState cfg f data strategy_params clock).positions = [] ∧
    ∀ tr ∈ (run_backtest cfg f data strategy_params clock).trades,
      tr.reason = "BACKTEST_END" →
        tr.exit_price = tr.entry_price * (1 + cfg.slippage_pct) := by
  have hloop := foldl_preserve KeysNodup
    (fun s t => processTimestamp cfg f s t (currentData data t) strategy_params)
    (commonTimestamps data) ⟨cfg.initial_balance, [], [], [], 0, 0, none, clock⟩
    (by simp [KeysNodup])
    (fun s t hs => processTimestamp_keysnodup cfg f s t _ strategy_params hs)
  have hrun := foldl_preserve (fun s => AllBuyState s ∧ EndTradesOk cfg s)
    (fun s t => processTimestamp cfg f s t (currentData data t) strategy_params)
    (commonTimestamps data) ⟨cfg.initial_balance, [], [], [], 0, 0, none, clock⟩
    ⟨⟨by simp, by simp⟩, by simp [EndTradesOk]⟩
    (fun s t hs => ⟨processTimestamp_allbuy cfg f s t _ strategy_params hs.1,
      processTimestamp_endok cfg f s t _ strategy_params hs.2⟩)
  constructor
  · unfold runBacktestState
    dsimp only
    unfold closeAllPositions
    exact closeAll_fold_empty cfg _ _ _ rfl hloop
  · intro tr htr hrsn
    have hfinal : EndTradesOk cfg (runBacktestState cfg f data strategy_params clock) := by
      unfold runBacktestState
      dsimp only
      exact closeAllPositions_endok cfg _ _ hrun
    exact hfinal tr htr hrsn

/-- C8 (counterexample): in the concrete 50-candle run the last known price of
the instrument is 100, but the single `BACKTEST_END` trade is recorded with
exit price 100.100025 = entryPrice · (1 + slippage) — not the last price, nor
the last price with either slippage direction applied. -/
theorem c8_counterexample :
    (btDataEx.map (fun sd => (sd.2.getLastD ⟨0, 0, 0, 0, 0⟩).close)) = [100] ∧
    ((run_backtest btCfgEx (fun _ => btSigEx) btDataEx none (fun _ => 1000)).trades.map
      (fun tr => (tr.reason, tr.exit_price))) = [("BACKTEST_END", 100.100025)] ∧
    (100.100025 : ℚ) ≠ 100 ∧
    (100.100025 : ℚ) ≠ 100 * (1 - 0.0005) ∧
    (100.100025 : ℚ) ≠ 100 * (1 + 0.0005) := by
  refine ⟨by decide, by decide, by norm_num, by norm_num, by norm_num⟩

/-- Witness for C8 (amended): the concrete run ends with no open positions
and its `BACKTEST_END` trade satisfies exit = entry · (1 + slippage). -/
theorem c8_witness :
    (runBacktestState btCfgEx (fun _ => btSigEx) btDataEx none (fun _ => 1000)).positions =
      [] ∧
    ((run_backtest btCfgEx (fun _ => btSigEx) btDataEx none (fun _ => 1000)).trades.headD
        ⟨"", "", 0, 0, 0, 0, 0, 0, 0, "", 0⟩).exit_price =
      ((run_backtest btCfgEx (fun _ => btSigEx) btDataEx none (fun _ => 1000)).trades.headD
        ⟨"", "", 0, 0, 0, 0, 0, 0, 0, "", 0⟩).entry_price * (1 + btCfgEx.slippage_pct) :=
  ⟨(c8_force_close_at_entry_price btCfgEx (fun _ => btSigEx) btDataEx none (fun _ => 1000)).1,
    (c8_force_close_at_entry_price btCfgEx (fun _ => btSigEx) btDataEx none (fun _ => 1000)).2
      _ (by decide) (by decide)⟩

/-- Erase the wall-clock-derived fields of a position (`entry_time` and the
generated `position_id`). -/
def stripPos (p : Position) : Position := { p with entry_time := 0, position_id := "" }

/-- Erase the wall-clock-derived fields of a trade record (`entry_time` and
`duration_seconds`). -/
def stripTrade (t : Trade) : Trade := { t with entry_time := 0, duration_seconds := 0 }

/-- Two position dicts agree up to the wall-clock-derived fields. -/
def posRel (P1 P2 : List (String × Position)) : Prop :=
  P1.map (fun sp => (sp.1, stripPos sp.2)) = P2.map (fun sp => (sp.1, stripPos sp.2))

lemma posRel_nil {P2 : List (String × Position)} (h : posRel [] P2) : P2 = [] := by
  unfold posRel at h
  exact List.map_eq_nil.1 h.symm

lemma posRel_cons {e1 : String × Position} {r1 P2 : List (String × Position)}
    (h : posRel (e1 :: r1) P2) :
    ∃ e2 r2, P2 = e2 :: r2 ∧ e1.1 = e2.1 ∧ stripPos e1.2 = stripPos e2.2 ∧
      posRel r1 r2 := by
  unfold posRel at h
  cases P2 with
  | nil => cases h
  | cons e2 r2 =>
    rw [List.map_cons, List.map_cons] at h
    injection h with h1 h2
    injection h1 with h1a h1b
    exact ⟨e2, r2, rfl, h1a, h1b, h2⟩

lemma posRel_keys {P1 P2 : List (String × Position)} (h : posRel P1 P2) :
    P1.map Prod.fst = P2.map Prod.fst := by
  induction P1 generalizing P2 with
  | nil => rw [posRel_nil h]
  | cons e1 r1 ih =>
    obtain ⟨e2, r2, rfl, hk, _, hr⟩ := posRel_cons h
    rw [List.map_cons, List.map_cons, hk, ih hr]

lemma posRel_length {P1 P2 : List (String × Position)} (h : posRel P1 P2) :
    P1.length = P2.length := by
  have := congrArg List.length (posRel_keys h)
  simpa using this

lemma posRel_dictGet {P1 P2 : List (String × Position)} (h : posRel P1 P2)
    (k : String) :
    Option.map stripPos (dictGet P1 k) = Option.map stripPos (dictGet P2 k) := by
  induction P1 generalizing P2 with
  | nil => rw [posRel_nil h]
  | cons e1 r1 ih =>
    obtain ⟨e2, r2, rfl, hk, hv, hr⟩ := posRel_cons h
    unfold dictGet
    rw [List.find?_cons, List.find?_cons]
    by_cases hek : e1.1 == k
    · have hek2 : (e2.1 == k) = true := by rw [← hk]; exact hek
      rw [hek, hek2]
      simpa using hv
    · have hek1 : (e1.1 == k) = false := by simpa using hek
      have hek2 : (e2.1 == k) = false := by rw [← hk]; exact hek1
      rw [hek1, hek2]
      exact ih hr

lemma posRel_dictGet_isSome {P1 P2 : List (String × Position)} (h : posRel P1 P2)
    (k : String) : (dictGet P1 k).isSome = (dictGet P2 k).isSome := by
  have := posRel_dictGet h k
  cases h1 : dictGet P1 k <;> cases h2 : dictGet P2 k <;>
    rw [h1, h2] at this <;> first | rfl | cases this

lemma posRel_dictPop {P1 P2 : List (String × Position)} (h : posRel P1 P2)
    (k : String) : posRel (dictPop P1 k) (dictPop P2 k) := by
  induction P1 generalizing P2 with
  | nil => rw [posRel_nil h]; rfl
  | cons e1 r1 ih =>
    obtain ⟨e2, r2, rfl, hk, hv, hr⟩ := posRel_cons h
    unfold dictPop
    rw [List.eraseP_cons, List.eraseP_cons]
    by_cases hek : e1.1 == k
    · have hek2 : (e2.1 == k) = true := by rw [← hk]; exact hek
      rw [hek, hek2]
      exact hr
    · have hek1 : (e1.1 == k) = false := by simpa using hek
      have hek2 : (e2.1 == k) = false := by rw [← hk]; exact hek1
      rw [hek1, hek2]
      show posRel (e1 :: List.eraseP _ r1) (e2 :: List.eraseP _ r2)
      unfold posRel
      rw [List.map_cons, List.map_cons, hk, hv]
      exact congrArg _ (ih hr)

lemma posRel_dictSet {P1 P2 : List (String × Position)} (h : posRel P1 P2)
    (k : String) {v1 v2 : Position} (hv : stripPos v1 = stripPos v2) :
    posRel (dictSet P1 k v1) (dictSet P2 k v2) := by
  have hmap : posRel (P1.map (fun e => if e.1 == k then (k, v1) else e))
      (P2.map (fun e => if e.1 == k then (k, v2) else e)) := by
    induction P1 generalizing P2 with
    | nil => rw [posRel_nil h]; rfl
    | cons e1 r1 ih =>
      obtain ⟨e2, r2, rfl, hk, hv2, hr⟩ := posRel_cons h
      rw [List.map_cons, List.map_cons]
      by_cases hek : e1.1 == k
      · rw [if_pos hek, if_pos (show (e2.1 == k) = true by rw [← hk]; exact hek)]
        show posRel ((k, v1) :: _) ((k, v2) :: _)
        unfold posRel
        rw [List.map_cons, List.map_cons, hv]
        exact congrArg _ (ih hr)
      · rw [if_neg hek,
          if_neg (show ¬(e2.1 == k) = true by rw [← hk]; exact hek)]
        show posRel (e1 :: _) (e2 :: _)
        unfold posRel
        rw [List.map_cons, List.map_cons, hk, hv2]
        exact congrArg _ (ih hr)
  have hfind : (P1.find? (fun e => e.1 == k)).isSome =
      (P2.find? (fun e => e.1 == k)).isSome := by
    rw [← dictGet_isSome_iff_find, ← dictGet_isSome_iff_find]
    exact posRel_dictGet_isSome h k
  unfold dictSet
  by_cases hf : (P1.find? (fun e => e.1 == k)).isSome
  · rw [if_pos hf, if_pos (hfind ▸ hf)]
    exact hmap
  · rw [if_neg hf, if_neg (hfind ▸ hf)]
    unfold posRel
    rw [List.map_append, List.map_append]
    unfold posRel at h
    rw [h, List.map_singleton, List.map_singleton, hv]

lemma stripPos_side {p1 p2 : Position} (h : stripPos p1 = stripPos p2) :
    p1.side = p2.side := by
  have h2 : (stripPos p1).side = (stripPos p2).side := congrArg Position.side h
  exact h2

lemma stripPos_symbol {p1 p2 : Position} (h : stripPos p1 = stripPos p2) :
    p1.symbol = p2.symbol := by
  have h2 : (stripPos p1).symbol = (stripPos p2).symbol := congrArg Position.symbol h
  exact h2

lemma stripPos_entry_price {p1 p2 : Position} (h : stripPos p1 = stripPos p2) :
    p1.entry_price = p2.entry_price := by
  have h2 : (stripPos p1).entry_price = (stripPos p2).entry_price := congrArg Position.entry_price h
  exact h2

lemma stripPos_quantity {p1 p2 : Position} (h : stripPos p1 = stripPos p2) :
    p1.quantity = p2.quantity := by
  have h2 : (stripPos p1).quantity = (stripPos p2).quantity := congrArg Position.quantity h
  exact h2

lemma stripPos_stop_loss {p1 p2 : Position} (h : stripPos p1 = stripPos p2) :
    p1.stop_loss = p2.stop_loss := by
  have h2 : (stripPos p1).stop_loss = (stripPos p2).stop_loss := congrArg Position.stop_loss h
  exact h2

lemma stripPos_take_profit {p1 p2 : Position} (h : stripPos p1 = stripPos p2) :
    p1.take_profit = p2.take_profit := by
  have h2 : (stripPos p1).take_profit = (stripPos p2).take_profit := congrArg Position.take_profit h
  exact h2

/-- Two engine states agree on everything except the wall-clock-derived
fields (position entry times and ids, trade entry times and durations) and
the clock stream itself. -/
def StateRel (st1 st2 : BTState) : Prop :=
  st1.balance = st2.balance ∧
  posRel st1.positions st2.positions ∧
  st1.trades.map stripTrade = st2.trades.map stripTrade ∧
  st1.equity_curve = st2.equity_curve ∧
  st1.total_commission = st2.total_commission ∧
  st1.total_slippage = st2.total_slippage ∧
  st1.cur_params = st2.cur_params

/-- Per-run invariant: every open position was created at a wall-clock
reading no earlier than any data timestamp, the remaining clock readings are
likewise late, and the effective time-stop is nonnegative. -/
def TimeOk (ts : List ℚ) (st : BTState) : Prop :=
  (∀ sp ∈ st.positions, ∀ t ∈ ts, t ≤ sp.2.entry_time) ∧
  (∀ n, ∀ t ∈ ts, t ≤ st.clock n) ∧
  0 ≤ maxHoldOf st.cur_params

lemma should_exit_congr (s : SignalsView) {p1 p2 : Position}
    (hside : p1.side = p2.side) (cp : Option StratParams) :
    should_exit s p1 cp = should_exit s p2 cp := by
  unfold should_exit
  rw [hside]

lemma exitReason_strip (f : List Candle → SignalsView) (cp : Option StratParams)
    (t : ℚ) {p1 p2 : Position} (candle : Candle) (hist : List Candle)
    (hstrip : stripPos p1 = stripPos p2) (hmh : 0 ≤ maxHoldOf cp)
    (ht1 : t ≤ p1.entry_time) (ht2 : t ≤ p2.entry_time) :
    exitReason f cp t p1 candle hist = exitReason f cp t p2 candle hist := by
  unfold exitReason
  dsimp only
  rw [stripPos_stop_loss hstrip, stripPos_take_profit hstrip,
    if_neg (not_lt.2 (show t - p1.entry_time ≤ maxHoldOf cp by linarith)),
    if_neg (not_lt.2 (show t - p2.entry_time ≤ maxHoldOf cp by linarith)),
    should_exit_congr (f hist) (stripPos_side hstrip) cp]

lemma foldl_rel {σ β : Type} (R : σ → σ → Prop) (f1 f2 : σ → β → σ)
    (l : List β) (s1 s2 : σ) (h : R s1 s2)
    (hstep : ∀ s1 s2 b, b ∈ l → R s1 s2 → R (f1 s1 b) (f2 s2 b)) :
    R (l.foldl f1 s1) (l.foldl f2 s2) := by
  induction l generalizing s1 s2 with
  | nil => exact h
  | cons b rest ih =>
    exact ih _ _ (hstep s1 s2 b (List.mem_cons_self b rest) h)
      (fun x1 x2 b2 hb2 => hstep x1 x2 b2 (List.mem_cons_of_mem b hb2))

lemma closePosition_rel (cfg : BTConfig) {s1 s2 : BTState} (hR : StateRel s1 s2)
    (symbol : String) (t price : ℚ) (reason : String) :
    StateRel (closePosition cfg s1 symbol t price reason)
      (closePosition cfg s2 symbol t price reason) := by
  have hget := posRel_dictGet hR.2.1 symbol
  unfold closePosition
  cases h1 : dictGet s1.positions symbol with
  | none =>
    cases h2 : dictGet s2.positions symbol with
    | none => exact hR
    | some p2 => rw [h1, h2] at hget; cases hget
  | some p1 =>
    cases h2 : dictGet s2.positions symbol with
    | none => rw [h1, h2] at hget; cases hget
    | some p2 =>
      rw [h1, h2] at hget
      have hstrip : stripPos p1 = stripPos p2 := by simpa using hget
      have hside := stripPos_side hstrip
      have hentry := stripPos_entry_price hstrip
      have hqty := stripPos_quantity hstrip
      obtain ⟨hbal, hpos, htr, heq, hcom, hsli, hcur⟩ := hR
      dsimp only
      refine ⟨?_, posRel_dictPop hpos symbol, ?_, heq, ?_, hsli, hcur⟩
      · rw [hbal, hside, hentry, hqty]
      · rw [List.map_append, List.map_append, htr, List.map_singleton,
          List.map_singleton]
        unfold stripTrade
        dsimp only
        rw [hside, hentry, hqty]
      · rw [hcom, hside, hqty]

lemma openPosition_rel (cfg : BTConfig) {s1 s2 : BTState} (hR : StateRel s1 s2)
    (symbol side : String) (t : ℚ) (candle : Candle)
    (strategy_params : Option StratParams) :
    StateRel (openPosition cfg s1 symbol side t candle strategy_params)
      (openPosition cfg s2 symbol side t candle strategy_params) := by
  obtain ⟨hbal, hpos, htr, heq, hcom, hsli, hcur⟩ := hR
  unfold openPosition
  dsimp only
  refine ⟨hbal, ?_, htr, heq, ?_, hsli, hcur⟩
  · apply posRel_dictSet hpos
    unfold mkPosition stripPos
    rw [hbal]
  · rw [hcom, hbal]

lemma closePosition_timeok (cfg : BTConfig) (ts : List ℚ) {st : BTState}
    (h : TimeOk ts st) (symbol : String) (t price : ℚ) (reason : String) :
    TimeOk ts (closePosition cfg st symbol t price reason) := by
  unfold closePosition
  cases hg : dictGet st.positions symbol with
  | none => exact h
  | some p =>
    exact ⟨fun sp hsp => h.1 sp (mem_dictPop _ _ _ hsp), h.2.1, h.2.2⟩

lemma openPosition_timeok (cfg : BTConfig) (ts : List ℚ) {st : BTState}
    (h : TimeOk ts st) (symbol side : String) (t : ℚ) (candle : Candle)
    (strategy_params : Option StratParams) :
    TimeOk ts (openPosition cfg st symbol side t candle strategy_params) := by
  unfold openPosition
  dsimp only
  refine ⟨?_, fun n u hu => h.2.1 (n + 1) u hu, h.2.2⟩
  intro sp hsp u hu
  rcases mem_dictSet _ _ _ _ hsp with heq | hmem
  · rw [heq]
    exact h.2.1 0 u hu
  · exact h.1 sp hmem u hu

lemma checkExitSignals_timeok (cfg : BTConfig) (f : List Candle → SignalsView)
    (ts : List ℚ) {st : BTState} (h : TimeOk ts st) (timestamp : ℚ)
    (cd : List (String × Candle × List Candle)) :
    TimeOk ts (checkExitSignals cfg f st timestamp cd) := by
  unfold checkExitSignals
  exact foldl_preserve _ _ _ _ h
    (fun s pr hs => closePosition_timeok cfg ts hs pr.1 timestamp pr.2.1 pr.2.2)

lemma checkEntrySignals_timeok (cfg : BTConfig) (f : List Candle → SignalsView)
    (ts : List ℚ) {st : BTState} (h : TimeOk ts st) (timestamp : ℚ)
    (cd : List (String × Candle × List Candle))
    (strategy_params : Option StratParams) :
    TimeOk ts (checkEntrySignals cfg f st timestamp cd strategy_params) := by
  unfold checkEntrySignals
  refine foldl_preserve _ _ _ _ h ?_
  intro s entry hs
  dsimp only
  split_ifs <;>
    first
    | exact hs
    | exact openPosition_timeok cfg ts hs entry.1 "LONG" timestamp entry.2.1
        strategy_params

lemma processTimestamp_timeok (cfg : BTConfig) (f : List Candle → SignalsView)
    (ts : List ℚ) {st : BTState} (timestamp : ℚ)
    (cd : List (String × Candle × List Candle))
    (strategy_params : Option StratParams)
    (hp : 0 ≤ maxHoldOf strategy_params) (h : TimeOk ts st) :
    TimeOk ts (processTimestamp cfg f st timestamp cd strategy_params) := by
  unfold processTimestamp recordEquity
  have h1 := checkExitSignals_timeok cfg f ts h timestamp cd
  dsimp only
  split_ifs with hlen
  · have h2 := checkEntrySignals_timeok cfg f ts h1 timestamp cd strategy_params
    exact ⟨h2.1, h2.2.1, hp⟩
  · exact ⟨h1.1, h1.2.1, hp⟩

lemma toClose_rel (f : List Candle → SignalsView) (cp : Option StratParams)
    (timestamp : ℚ) (cd : List (String × Candle × List Candle))
    {P1 P2 : List (String × Position)} (hpos : posRel P1 P2)
    (hmh : 0 ≤ maxHoldOf cp)
    (hb1 : ∀ sp ∈ P1, timestamp ≤ sp.2.entry_time)
    (hb2 : ∀ sp ∈ P2, timestamp ≤ sp.2.entry_time) :
    P1.foldr (fun sp acc =>
      match cd.find? (fun e => e.1 == sp.1) with
      | none => acc
      | some e =>
        match exitReason f cp timestamp sp.2 e.2.1 e.2.2 with
        | none => acc
        | some pr => (sp.1, pr.1, pr.2) :: acc) [] =
    P2.foldr (fun sp acc =>
      match cd.find? (fun e => e.1 == sp.1) with
      | none => acc
      | some e =>
        match exitReason f cp timestamp sp.2 e.2.1 e.2.2 with
        | none => acc
        | some pr => (sp.1, pr.1, pr.2) :: acc) [] := by
  induction P1 generalizing P2 with
  | nil => rw [posRel_nil hpos]
  | cons e1 r1 ih =>
    obtain ⟨e2, r2, rfl, hk, hv, hr⟩ := posRel_cons hpos
    rw [List.foldr_cons, List.foldr_cons]
    rw [← hk,
      ih hr (fun sp hsp => hb1 sp (List.mem_cons_of_mem _ hsp))
        (fun sp hsp => hb2 sp (List.mem_cons_of_mem _ hsp))]
    cases hf : cd.find? (fun e => e.1 == e1.1) with
    | none => rfl
    | some e =>
      dsimp only
      rw [exitReason_strip f cp timestamp e.2.1 e.2.2 hv hmh
        (hb1 e1 (List.mem_cons_self _ _))
        (hb2 e2 (List.mem_cons_self _ _))]

lemma checkExitSignals_rel (cfg : BTConfig) (f : List Candle → SignalsView)
    {s1 s2 : BTState} (hR : StateRel s1 s2) (timestamp : ℚ)
    (cd : List (String × Candle × List Candle))
    (hmh : 0 ≤ maxHoldOf s1.cur_params)
    (hb1 : ∀ sp ∈ s1.positions, timestamp ≤ sp.2.entry_time)
    (hb2 : ∀ sp ∈ s2.positions, timestamp ≤ sp.2.entry_time) :
    StateRel (checkExitSignals cfg f s1 timestamp cd)
      (checkExitSignals cfg f s2 timestamp cd) := by
  have hcur := hR.2.2.2.2.2.2
  unfold checkExitSignals
  dsimp only
  rw [← hcur, toClose_rel f s1.cur_params timestamp cd hR.2.1 hmh hb1 hb2]
  exact foldl_rel StateRel _ _ _ s1 s2 hR
    (fun x1 x2 pr _ hx => closePosition_rel cfg hx pr.1 timestamp pr.2.1 pr.2.2)

lemma checkEntrySignals_rel (cfg : BTConfig) (f : List Candle → SignalsView)
    {s1 s2 : BTState} (hR : StateRel s1 s2) (timestamp : ℚ)
    (cd : List (String × Candle × List Candle))
    (strategy_params : Option StratParams) :
    StateRel (checkEntrySignals cfg f s1 timestamp cd strategy_params)
      (checkEntrySignals cfg f s2 timestamp cd strategy_params) := by
  unfold checkEntrySignals
  refine foldl_rel StateRel _ _ cd s1 s2 hR ?_
  intro x1 x2 entry hmem hx
  dsimp only
  have hsome := posRel_dictGet_isSome hx.2.1 entry.1
  by_cases h1 : (dictGet x1.positions entry.1).isSome = true
  · have h2 : (dictGet x2.positions entry.1).isSome = true := by
      rw [← hsome]; exact h1
    rw [if_pos h1, if_pos h2]
    exact hx
  · have h2 : ¬(dictGet x2.positions entry.1).isSome = true := by
      rw [← hsome]; exact h1
    rw [if_neg h1, if_neg h2]
    split_ifs <;>
      first
      | exact hx
      | exact openPosition_rel cfg hx entry.1 "LONG" timestamp entry.2.1
          strategy_params

lemma recordEquity_rel {s1 s2 : BTState} (hR : StateRel s1 s2) (timestamp : ℚ) :
    StateRel (recordEquity s1 timestamp) (recordEquity s2 timestamp) := by
  obtain ⟨hbal, hpos, htr, heq, hcom, hsli, hcur⟩ := hR
  unfold recordEquity
  exact ⟨hbal, hpos, htr, by rw [heq, hbal, posRel_length hpos], hcom, hsli, hcur⟩

lemma processTimestamp_rel (cfg : BTConfig) (f : List Candle → SignalsView)
    {s1 s2 : BTState} (hR : StateRel s1 s2) (timestamp : ℚ)
    (cd : List (String × Candle × List Candle))
    (strategy_params : Option StratParams)
    (hmh : 0 ≤ maxHoldOf s1.cur_params)
    (hb1 : ∀ sp ∈ s1.positions, timestamp ≤ sp.2.entry_time)
    (hb2 : ∀ sp ∈ s2.positions, timestamp ≤ sp.2.entry_time) :
    StateRel (processTimestamp cfg f s1 timestamp cd strategy_params)
      (processTimestamp cfg f s2 timestamp cd strategy_params) := by
  have hE := checkExitSignals_rel cfg f hR timestamp cd hmh hb1 hb2
  have hlen := posRel_length hE.2.1
  unfold processTimestamp
  dsimp only
  by_cases hc :
      (checkExitSignals cfg f s1 timestamp cd).positions.length < cfg.max_positions
  · rw [if_pos hc, if_pos (by rw [← hlen]; exact hc)]
    apply recordEquity_rel
    have hEE := checkEntrySignals_rel cfg f hE timestamp cd strategy_params
    exact ⟨hEE.1, hEE.2.1, hEE.2.2.1, hEE.2.2.2.1, hEE.2.2.2.2.1,
      hEE.2.2.2.2.2.1, rfl⟩
  · rw [if_neg hc, if_neg (by rw [← hlen]; exact hc)]
    apply recordEquity_rel
    exact ⟨hE.1, hE.2.1, hE.2.2.1, hE.2.2.2.1, hE.2.2.2.2.1, hE.2.2.2.2.2.1, rfl⟩

lemma closeAllPositions_rel (cfg : BTConfig) {s1 s2 : BTState}
    (hR : StateRel s1 s2) (timestamp : ℚ) :
    StateRel (closeAllPositions cfg s1 timestamp)
      (closeAllPositions cfg s2 timestamp) := by
  unfold closeAllPositions
  rw [posRel_keys hR.2.1]
  refine foldl_rel StateRel _ _ _ s1 s2 hR ?_
  intro x1 x2 symbol hmem hx
  have hget := posRel_dictGet hx.2.1 symbol
  cases h1 : dictGet x1.positions symbol with
  | none =>
    cases h2 : dictGet x2.positions symbol with
    | none => exact hx
    | some p2 => rw [h1, h2] at hget; cases hget
  | some p1 =>
    cases h2 : dictGet x2.positions symbol with
    | none => rw [h1, h2] at hget; cases hget
    | some p2 =>
      rw [h1, h2] at hget
      have hstrip : stripPos p1 = stripPos p2 := by simpa using hget
      dsimp only
      rw [stripPos_entry_price hstrip]
      exact closePosition_rel cfg hx symbol timestamp p2.entry_price "BACKTEST_END"

/-- C3: The claim as stated is false -- the backtest engine is not free of
wall-clock dependency: `Position.__init__` stamps `entry_time = datetime.now()`
and a clock-derived `position_id`, and `_close_position` copies `entry_time`
and `duration_seconds = exit_time - entry_time` into the trade record, so two
runs over identical data and configuration that read different wall clocks
produce trade ledgers differing in those fields (here: `entry_time` 1000 in
one run and 2000 in the other). -/
theorem c3_counterexample :
    (run_backtest btCfgEx (fun _ => btSigEx) btDataEx none (fun _ => 1000)).trades ≠
      (run_backtest btCfgEx (fun _ => btSigEx) btDataEx none (fun _ => 2000)).trades ∧
    (run_backtest btCfgEx (fun _ => btSigEx) btDataEx none
        (fun _ => 1000)).trades.map Trade.entry_time = [1000] ∧
    (run_backtest btCfgEx (fun _ => btSigEx) btDataEx none
        (fun _ => 2000)).trades.map Trade.entry_time = [2000] := by
  refine ⟨by decide, by decide, by decide⟩

/-- C3 (amended): Up to the wall-clock-derived trade fields (`entry_time`,
`duration_seconds`) the backtest is deterministic: two runs over identical
candle data, identical configuration and identical strategy parameters --
with any two wall clocks whose readings are no earlier than every data
timestamp (a live run happens after the historical data), and a nonnegative
effective time-stop -- produce the same trade ledger modulo those two fields,
and identical equity curves, final balances, total commissions and total
slippages.  No other randomness or clock dependency exists in the engine. -/
theorem c3_backtest_deterministic_up_to_wallclock
    (cfg : BTConfig) (f : List Candle → SignalsView)
    (data : List (String × List Candle)) (strategy_params : Option StratParams)
    (clk1 clk2 : ℕ → ℚ)
    (hp : 0 ≤ maxHoldOf strategy_params)
    (h1 : ∀ n, ∀ t ∈ commonTimestamps data, t ≤ clk1 n)
    (h2 : ∀ n, ∀ t ∈ commonTimestamps data, t ≤ clk2 n) :
    (run_backtest cfg f data strategy_params clk1).trades.map stripTrade =
      (run_backtest cfg f data strategy_params clk2).trades.map stripTrade ∧
    (run_backtest cfg f data strategy_params clk1).equity_curve =
      (run_backtest cfg f data strategy_params clk2).equity_curve ∧
    (run_backtest cfg f data strategy_params clk1).final_balance =
      (run_backtest cfg f data strategy_params clk2).final_balance ∧
    (run_backtest cfg f data strategy_params clk1).total_commission =
      (run_backtest cfg f data strategy_params clk2).total_commission ∧
    (run_backtest cfg f data strategy_params clk1).total_slippage =
      (run_backtest cfg f data strategy_params clk2).total_slippage := by
  have hfinal : StateRel (runBacktestState cfg f data strategy_params clk1)
      (runBacktestState cfg f data strategy_params clk2) := by
    unfold runBacktestState
    dsimp only
    apply closeAllPositions_rel
    have hstep : ∀ x1 x2 t, t ∈ commonTimestamps data →
        (StateRel x1 x2 ∧ TimeOk (commonTimestamps data) x1 ∧
          TimeOk (commonTimestamps data) x2) →
        (StateRel
            (processTimestamp cfg f x1 t (currentData data t) strategy_params)
            (processTimestamp cfg f x2 t (currentData data t) strategy_params) ∧
          TimeOk (commonTimestamps data)
            (processTimestamp cfg f x1 t (currentData data t) strategy_params) ∧
          TimeOk (commonTimestamps data)
            (processTimestamp cfg f x2 t (currentData data t) strategy_params)) := by
      intro x1 x2 t ht hx
      exact ⟨processTimestamp_rel cfg f hx.1 t (currentData data t)
          strategy_params hx.2.1.2.2 (fun sp hsp => hx.2.1.1 sp hsp t ht)
          (fun sp hsp => hx.2.2.1 sp hsp t ht),
        processTimestamp_timeok cfg f (commonTimestamps data) t
          (currentData data t) strategy_params hp hx.2.1,
        processTimestamp_timeok cfg f (commonTimestamps data) t
          (currentData data t) strategy_params hp hx.2.2⟩
    exact (foldl_rel
      (fun a b => StateRel a b ∧ TimeOk (commonTimestamps data) a ∧
        TimeOk (commonTimestamps data) b)
      (fun s t => processTimestamp cfg f s t (currentData data t) strategy_params)
      (fun s t => processTimestamp cfg f s t (currentData data t) strategy_params)
      (commonTimestamps data)
      ⟨cfg.initial_balance, [], [], [], 0, 0, none, clk1⟩
      ⟨cfg.initial_balance, [], [], [], 0, 0, none, clk2⟩
      ⟨⟨rfl, rfl, rfl, rfl, rfl, rfl, rfl⟩,
        ⟨fun sp hsp => absurd hsp (List.not_mem_nil sp), h1,
          by norm_num [maxHoldOf, isAggressive]⟩,
        ⟨fun sp hsp => absurd hsp (List.not_mem_nil sp), h2,
          by norm_num [maxHoldOf, isAggressive]⟩⟩
      hstep).1
  unfold run_backtest
  dsimp only
  exact ⟨hfinal.2.2.1, hfinal.2.2.2.1, hfinal.1, hfinal.2.2.2.2.1,
    hfinal.2.2.2.2.2.1⟩

/-- Witness for C3: the two counterexample runs (clocks pinned at 1000
resp. 2000, both past every data timestamp 1..50) agree on the whole trade
ledger once the two wall-clock fields are erased. -/
theorem c3_witness :
    (run_backtest btCfgEx (fun _ => btSigEx) btDataEx none
        (fun _ => 1000)).trades.map stripTrade =
      (run_backtest btCfgEx (fun _ => btSigEx) btDataEx none
        (fun _ => 2000)).trades.map stripTrade :=
  (c3_backtest_deterministic_up_to_wallclock btCfgEx (fun _ => btSigEx)
    btDataEx none (fun _ => 1000) (fun _ => 2000)
    (by norm_num [maxHoldOf, isAggressive])
    (fun n => (show ∀ t ∈ commonTimestamps btDataEx, t ≤ (1000 : ℚ) by decide))
    (fun n => (show ∀ t ∈ commonTimestamps btDataEx, t ≤ (2000 : ℚ) by decide))).1
